import Mathlib

/-!
# CAN logger firmware (`Firmware/ChibiStudio/CAN-Logger/main.c`)

A shallow embedding of the data-buffering functions (`align_buffer`,
`copy_buffer`, `request_write`, `fwrite_string`), of the body of the receiver
thread `can1_rx` (acceptance filter and line formatter), of `start_log`, of
`read_config_file` and of an iteration of the loop of `main`, followed by
theorems about them.

Conventions of the embedding:

* the global variables of `main.c` are the fields of `Globals`;
* a `char` array is a map `Nat → Char` from index to content; an access is
  checked against the declared size of the array, and a function that would
  read or write outside an array yields `none`;
* `WORD` (from `ff.h`) is a 16-bit unsigned integer: a `Nat` reduced
  modulo `65536` at each assignment; `unsigned char` flags are `Nat`s tested
  against `0`; `int` is `Int`;
* a C string argument is the list of its characters before the terminator;
* what the program receives from outside (the system time, the count `fwrite_`
  returns, the result of `f_sync`, the lines of `Config.txt`) is an argument of
  the function that uses it.
-/

namespace CANLogger

/-! ## Constants -/

/-- Capacity of each of the two buffers: `#define SD_WRITE_BUFFER (1024*49)`. -/
def SD_WRITE_BUFFER : Nat := 1024 * 49

/-- Flush threshold: `#define SD_WRITE_BUFFER_FLUSH_LIMIT (1024*48)`. -/
def SD_WRITE_BUFFER_FLUSH_LIMIT : Nat := 1024 * 48

/-- Modelled from the spec: the storage block size `B`, 512 bytes in the
reference target; the macro `MMCSD_BLOCK_SIZE` is defined in the HAL headers,
which are not part of the sources. -/
def MMCSD_BLOCK_SIZE : Nat := 512

/-- Number of values of a `WORD` (16-bit unsigned, declared in `ff.h`). -/
def WORD_RANGE : Nat := 65536

/-! ## Global state -/

/-- The global variables of `main.c` that the logging path reads or writes. -/
structure Globals where
  /-- `unsigned char bLogging`: 1 while logging to the card. -/
  bLogging : Nat
  /-- `char sd_buffer[SD_WRITE_BUFFER]`: buffer collecting data to write. -/
  sd_buffer : Nat → Char
  /-- `WORD sd_buffer_length`. -/
  sd_buffer_length : Nat
  /-- `char sd_buffer_for_write[SD_WRITE_BUFFER]`: data ready to be written. -/
  sd_buffer_for_write : Nat → Char
  /-- `unsigned char bReqWrite`: write request. -/
  bReqWrite : Nat
  /-- `WORD sd_buffer_length_for_write`. -/
  sd_buffer_length_for_write : Nat
  /-- `unsigned char bWriteFault`: 1 on overlap, 2 on write fault. -/
  bWriteFault : Nat
  /-- `unsigned char bIncludeTimestamp`. -/
  bIncludeTimestamp : Nat
  /-- `int iFilterMask`. -/
  iFilterMask : Int
  /-- `int iFilterValue`. -/
  iFilterValue : Int
  /-- `unsigned char bLogStdMsgs`. -/
  bLogStdMsgs : Nat
  /-- `unsigned char bLogExtMsgs`. -/
  bLogExtMsgs : Nat

/-! ## Checked array accesses -/

/-- Read `buf[i]` in an array of `SD_WRITE_BUFFER` chars. -/
def load (buf : Nat → Char) (i : Nat) : Option Char :=
  if i < SD_WRITE_BUFFER then some (buf i) else none

/-- Write `buf[i] = c` in an array of `SD_WRITE_BUFFER` chars. -/
def store (buf : Nat → Char) (i : Nat) (c : Char) : Option (Nat → Char) :=
  if i < SD_WRITE_BUFFER then some (fun j => if j = i then c else buf j) else none

/-- The call `memcpy(&buf[off], src, n)` for a string `src` of at least `n`
characters: the bytes `off .. off+n-1` of the array are written. -/
def memcpy_string (buf : Nat → Char) (off : Nat) (src : List Char) (n : Nat) :
    Option (Nat → Char) :=
  if n = 0 ∨ off + n ≤ SD_WRITE_BUFFER then
    some (fun j => if off ≤ j ∧ j < off + n then src.getD (j - off) '\x00' else buf j)
  else none

/-- The call `memcpy(dst, src, n)` between the two buffers: the first `n` bytes
of `src` are read and written to `dst`. -/
def memcpy_buffer (dst src : Nat → Char) (n : Nat) : Option (Nat → Char) :=
  if n ≤ SD_WRITE_BUFFER then some (fun j => if j < n then src j else dst j) else none

/-! ## Data buffering functions -/

/-- The loop `for (int i = 1; i < len; i++) sd_buffer[sd_buffer_length + i - 2] = ' ';`
of `align_buffer`: `n` is the number of iterations left, `i` the loop counter and
`L` the value of `sd_buffer_length`. -/
def align_fill (L : Nat) : Nat → Nat → (Nat → Char) → Option (Nat → Char)
  | 0, _, buf => some buf
  | n + 1, i, buf => (store buf (L + i - 2) ' ').bind fun b => align_fill L n (i + 1) b

/-- Embedding of `int align_buffer()`: the new globals and the value returned. -/
def align_buffer (g : Globals) : Option (Globals × Int) :=
  if g.sd_buffer_length < 2 then some (g, 0) else
  (load g.sd_buffer (g.sd_buffer_length - 2)).bind fun c2 =>
  if c2 ≠ '\r' then some (g, 0) else
  (load g.sd_buffer (g.sd_buffer_length - 1)).bind fun c1 =>
  if c1 ≠ '\n' then some (g, 0) else
  let len := MMCSD_BLOCK_SIZE - (g.sd_buffer_length % MMCSD_BLOCK_SIZE)
  (store g.sd_buffer (g.sd_buffer_length - 2) ',').bind fun b1 =>
  (align_fill g.sd_buffer_length (len - 1) 1 b1).bind fun b2 =>
  (store b2 (g.sd_buffer_length + len - 2) '\r').bind fun b3 =>
  (store b3 (g.sd_buffer_length + len - 1) '\n').bind fun b4 =>
  some ({ g with sd_buffer := b4,
                 sd_buffer_length := (g.sd_buffer_length + len) % WORD_RANGE }, 1)

/-- Embedding of `void copy_buffer()`. -/
def copy_buffer (g : Globals) : Option Globals :=
  (memcpy_buffer g.sd_buffer_for_write g.sd_buffer g.sd_buffer_length).bind fun w =>
  some { g with sd_buffer_for_write := w,
                sd_buffer_length_for_write := g.sd_buffer_length,
                sd_buffer_length := 0 }

/-- Embedding of `void request_write()`. -/
def request_write (g : Globals) : Option Globals :=
  let g1 := if g.bReqWrite ≠ 0 then { g with bWriteFault := 1 } else g
  (align_buffer g1).bind fun r =>
  (copy_buffer r.1).bind fun g3 =>
  some { g3 with bReqWrite := 1 }

/-- Embedding of `void fwrite_string(char *pString)`. -/
def fwrite_string (g : Globals) (pString : List Char) : Option Globals :=
  let length := pString.length % WORD_RANGE
  (memcpy_string g.sd_buffer g.sd_buffer_length pString length).bind fun b =>
  let g1 := { g with sd_buffer := b,
                     sd_buffer_length := (g.sd_buffer_length + length) % WORD_RANGE }
  if g1.sd_buffer_length ≥ SD_WRITE_BUFFER_FLUSH_LIMIT then request_write g1 else some g1

/-- A sequence of calls of `fwrite_string`, one per string, in list order. -/
def fwrite_strings : Globals → List (List Char) → Option Globals
  | g, [] => some g
  | g, s :: rest => (fwrite_string g s).bind fun g1 => fwrite_strings g1 rest

/-! ## Receiver thread: acceptance filter and line formatter -/

/-- Modelled from the spec: a received frame carries the identifier kind, the
identifier value, the payload length and the payload bytes. The record type
`CANRxFrame` is declared in the HAL headers, which are not part of the sources;
the fields are those `can1_rx` accesses. In the record the bit-fields `SID:11`
and `EID:29` are two views of the same identifier word (a union), `SID` being its
low 11 bits; `DLC` is a 4-bit field and `data8` an array of 8 bytes. -/
structure CANRxFrame where
  /-- The field `DLC:4`. -/
  DLC : Nat
  /-- The field `IDE:1`: set for a frame with an extended identifier. -/
  IDE : Bool
  /-- The identifier word shared by the views `SID` and `EID`. -/
  ident : Nat
  /-- The array `data8[8]`. -/
  data8 : Nat → Nat

/-- The view `rxmsg.EID` (29 bits). -/
def CANRxFrame.EID (m : CANRxFrame) : Nat := m.ident % 2 ^ 29

/-- The view `rxmsg.SID` (11 bits). -/
def CANRxFrame.SID (m : CANRxFrame) : Nat := m.ident % 2 ^ 11

/-- The identifier of the frame: the extended identifier for a frame with `IDE`
set, the standard identifier otherwise (the field the acceptance test of
`can1_rx` reads for each kind). -/
def CANRxFrame.identifier (m : CANRxFrame) : Nat := if m.IDE then m.EID else m.SID

/-- The value of `rxmsg.DLC` (4 bits). -/
def CANRxFrame.dlc (m : CANRxFrame) : Nat := m.DLC % 16

/-- Read `rxmsg.data8[i]`, an `uint8_t` of an array of 8. -/
def CANRxFrame.data8_at (m : CANRxFrame) (i : Nat) : Option Nat :=
  if i < 8 then some (m.data8 i % 256) else none

/-- The sixteen digits of the conversion `%X`. -/
def upperHexDigits : List Char :=
  ['0', '1', '2', '3', '4', '5', '6', '7', '8', '9', 'A', 'B', 'C', 'D', 'E', 'F']

/-- The ten digits of the conversion `%d`. -/
def decimalDigits : List Char := ['0', '1', '2', '3', '4', '5', '6', '7', '8', '9']

/-- Positional representation of `n` with the digits of `alphabet`, most
significant first, without leading zeros; the first argument bounds the number
of digits. -/
def fmt_radix (alphabet : List Char) : Nat → Nat → List Char
  | 0, _ => []
  | fuel + 1, n =>
    if n < alphabet.length then [alphabet.getD n '0']
    else fmt_radix alphabet fuel (n / alphabet.length) ++ [alphabet.getD (n % alphabet.length) '0']

/-- The conversion `%X` of `printf`. -/
def fmt_X (n : Nat) : List Char := fmt_radix upperHexDigits (n + 1) n

/-- The conversion `%02X` of `printf`: at least two digits, padded with zeros. -/
def fmt_02X (n : Nat) : List Char :=
  List.replicate (2 - (fmt_X n).length) '0' ++ fmt_X n

/-- The conversion `%d` of `printf`. -/
def fmt_d (i : Int) : List Char :=
  if i < 0 then '-' :: fmt_radix decimalDigits (i.natAbs + 1) i.natAbs
  else fmt_radix decimalDigits (i.natAbs + 1) i.natAbs

/-- The cast `(int)chVTGetSystemTime()` of a 32-bit system time. -/
def int_of_systime (t : Nat) : Int :=
  if t % 2 ^ 32 < 2 ^ 31 then ((t % 2 ^ 32 : Nat) : Int) else ((t % 2 ^ 32 : Nat) : Int) - 2 ^ 32

/-- The acceptance test of `can1_rx`: `false` where the code takes a
`continue`, `true` where it goes on to write the frame down. -/
def can1_rx_accept (g : Globals) (rxmsg : CANRxFrame) : Bool :=
  if rxmsg.IDE then
    if g.bLogExtMsgs = 0 then false
    else if Int.land rxmsg.EID g.iFilterMask ≠ Int.land g.iFilterValue g.iFilterMask then false
    else true
  else
    if g.bLogStdMsgs = 0 then false
    else if Int.land rxmsg.SID g.iFilterMask ≠ Int.land g.iFilterValue g.iFilterMask then false
    else true

/-- The loop `for (int i = 0; i < rxmsg.DLC; i++) sprintf(sTmp+strlen(sTmp), ",%02X", rxmsg.data8[i]);`
of `can1_rx`: `n` is the number of iterations left, `i` the loop counter. -/
def can1_rx_data (rxmsg : CANRxFrame) : Nat → Nat → List Char → Option (List Char)
  | 0, _, sTmp => some sTmp
  | n + 1, i, sTmp =>
    (rxmsg.data8_at i).bind fun b => can1_rx_data rxmsg n (i + 1) (sTmp ++ ',' :: fmt_02X b)

/-- The line `can1_rx` builds in `sTmp` for a frame received at system time `now`. -/
def can1_rx_line (g : Globals) (now : Nat) (rxmsg : CANRxFrame) : Option (List Char) :=
  let sTmp :=
    if g.bIncludeTimestamp ≠ 0 then fmt_d (int_of_systime now) ++ ',' :: fmt_X rxmsg.EID
    else fmt_X rxmsg.EID
  (can1_rx_data rxmsg rxmsg.dlc 0 sTmp).bind fun s => some (s ++ ['\r', '\n'])

/-- The first `n` bytes of a buffer, in index order. -/
def contents (buf : Nat → Char) (n : Nat) : List Char := (List.range n).map buf

/-- The globals of `main.c` together with the session file as the program acts
on it: the blocks of bytes submitted to `file` by `fwrite_` since it was opened,
oldest first, and `systime_t stLastWriting`. -/
structure Logger where
  /-- The global variables. -/
  vars : Globals
  /-- The blocks submitted to the session file, in submission order. -/
  submitted : List (List Char)
  /-- `systime_t stLastWriting`. -/
  stLastWriting : Nat

/-- The bytes the call `fwrite_(buf, 1, n, file)` submits to the file: the first
`n` bytes of the array. The helper is declared in `file_utils.h`; the count it
returns is an input of the caller's embedding. -/
def fwrite_ (buf : Nat → Char) (n : Nat) : Option (List Char) :=
  if n ≤ SD_WRITE_BUFFER then some (contents buf n) else none

/-- The header line of `start_log` with the timestamp column. -/
def header_timestamp : List Char :=
  "Timestamp,ID,Data0,Data1,Data2,Data3,Data4,Data5,Data6,Data7\r\n".toList

/-- The header line of `start_log` without the timestamp column. -/
def header_plain : List Char :=
  "ID,Data0,Data1,Data2,Data3,Data4,Data5,Data6,Data7\r\n".toList

/-- Embedding of `void start_log()`, called at system time `now`: the file is
opened, the header is appended, aligned and submitted, the counters are reset. -/
def start_log (s : Logger) (now : Nat) : Option Logger :=
  let sLine := if s.vars.bIncludeTimestamp ≠ 0 then header_timestamp else header_plain
  (fwrite_string s.vars sLine).bind fun g1 =>
  (align_buffer g1).bind fun r =>
  (fwrite_ r.1.sd_buffer r.1.sd_buffer_length).bind fun bytes =>
  some { vars := { r.1 with sd_buffer_length_for_write := 0,
                            sd_buffer_length := 0,
                            bWriteFault := 0,
                            bLogging := 1 },
         submitted := [bytes],
         stLastWriting := now % 2 ^ 32 }

/-- The first part of an iteration of the loop of `main`: the idle flush.
`now` is the system time and `freq` the tick frequency, so that
`chVTTimeElapsedSinceX(stLastWriting)` is `now - stLastWriting` modulo `2^32`
and `TIME_S2I(2)` is `2 * freq`. -/
def main_idle_flush (s : Logger) (freq now : Nat) : Option Logger :=
  if (now % 2 ^ 32 + 2 ^ 32 - s.stLastWriting % 2 ^ 32) % 2 ^ 32 > 2 * freq then
    if s.vars.sd_buffer_length > 0 then
      (request_write s.vars).bind fun g => some { s with vars := g }
    else some s
  else some s

/-- The second part of an iteration of the loop of `main`: the block
`if (bReqWrite) { ... }`. `written` is the count `fwrite_` returns, `sync_ok`
tells whether `f_sync` returns `FR_OK`, `now` is the system time afterwards. -/
def main_write_pending (s : Logger) (written : Nat) (sync_ok : Bool) (now : Nat) :
    Option Logger :=
  if s.vars.bReqWrite ≠ 0 then
    (fwrite_ s.vars.sd_buffer_for_write s.vars.sd_buffer_length_for_write).bind fun bytes =>
    let g1 := if written ≠ s.vars.sd_buffer_length_for_write
      then { s.vars with bWriteFault := 2 } else s.vars
    let g2 := if sync_ok = false then { g1 with bWriteFault := 2 } else g1
    some { vars := { g2 with bReqWrite := 0 },
           submitted := s.submitted ++ [bytes],
           stLastWriting := now % 2 ^ 32 }
  else some s

/-- One iteration of the `while (1)` loop of `main`. -/
def main_loop_iteration (s : Logger) (freq now : Nat) (written : Nat) (sync_ok : Bool)
    (now_done : Nat) : Option Logger :=
  (main_idle_flush s freq now).bind fun s1 => main_write_pending s1 written sync_ok now_done

/-! ## Configuration file -/

/-- Modelled from the spec: the bit-timing register `cancfg.btr` that
`read_config_file` programs. The macros `CAN_BTR_SJW`, `CAN_BTR_TS2`,
`CAN_BTR_TS1`, `CAN_BTR_BRP` and `CAN_BTR_SILM` are defined in the HAL headers,
which are not part of the sources; the record keeps the argument given to each
macro and whether the silent mode flag is set. -/
structure BTR where
  /-- Argument of `CAN_BTR_SJW`. -/
  SJW : Int
  /-- Argument of `CAN_BTR_TS2`. -/
  TS2 : Int
  /-- Argument of `CAN_BTR_TS1`. -/
  TS1 : Int
  /-- Argument of `CAN_BTR_BRP`. -/
  BRP : Int
  /-- Whether `CAN_BTR_SILM` is set. -/
  SILM : Bool

/-- The locals `baud`, `ack`, `res` of `read_config_file` and the globals, as
the loop over the lines of the file updates them. -/
structure ConfigState where
  /-- The global variables. -/
  vars : Globals
  /-- The local `int baud`. -/
  baud : Int
  /-- The local `int ack`. -/
  ack : Int
  /-- The local `int res`. -/
  res : Int

/-- An `int` stored into an `unsigned char`. -/
def uchar_of_int (v : Int) : Nat := (v % 256).toNat

/-- The result of an `int` operation, reduced to 32 bits in two's complement
(signed overflow, undefined in C, is taken to wrap as on the target). -/
def wrap_int (v : Int) : Int := (v + 2 ^ 31) % 2 ^ 32 - 2 ^ 31

/-- The body of the loop of `read_config_file` for a line on which `sscanf`
has read the name and the integer. -/
def read_config_line (st : ConfigState) (line : String × Int) : ConfigState :=
  if line.1 = "baud" then { st with baud := line.2, res := 1 }
  else if line.1 = "ack_en" then { st with ack := line.2 }
  else if line.1 = "id_filter_mask" then
    { st with vars := { st.vars with iFilterMask := line.2 } }
  else if line.1 = "id_filter_value" then
    { st with vars := { st.vars with iFilterValue := line.2 } }
  else if line.1 = "timestamp" then
    { st with vars := { st.vars with bIncludeTimestamp := uchar_of_int line.2 } }
  else if line.1 = "log_std" then
    { st with vars := { st.vars with bLogStdMsgs := uchar_of_int line.2 } }
  else if line.1 = "log_ext" then
    { st with vars := { st.vars with bLogExtMsgs := uchar_of_int line.2 } }
  else st

/-- The statement `baud = (int)(7*baud/1000.0 + 0.5);`. The product is an `int`;
its quotient by `1000.0` plus `0.5` is the number `(7*baud + 500) / 1000`, and the
cast truncates it toward zero. The quotient is a multiple of 1/1000 and the
rounding error of the two `double` operations is far below that, so the
truncation of the exact quotient is the value the code computes. -/
def prescaler (baud : Int) : Int := Int.tdiv (wrap_int (7 * baud) + 500) 1000

/-- Embedding of `int read_config_file()`. `file` is `none` when `Config.txt`
cannot be opened and otherwise the lines of the file, each as the name and the
integer `sscanf` reads; `btr0` is the value of `cancfg.btr` before the call and
`baud0` the indeterminate initial value of the local `baud`. The result is the
globals, `cancfg.btr` and the value returned. -/
def read_config_file (g : Globals) (btr0 : BTR) (baud0 : Int)
    (file : Option (List (String × Int))) : Globals × BTR × Int :=
  let g0 := { g with iFilterMask := 0, iFilterValue := 0, bIncludeTimestamp := 1,
                     bLogStdMsgs := 1, bLogExtMsgs := 1 }
  match file with
  | none => (g0, btr0, 0)
  | some lines =>
    let st := lines.foldl read_config_line { vars := g0, baud := baud0, ack := 0, res := 0 }
    let baud := prescaler st.baud
    let btr : BTR :=
      if st.ack ≠ 0 then { SJW := 0, TS2 := 2, TS1 := 1, BRP := baud - 1, SILM := false }
      else { SJW := 0, TS2 := 2, TS1 := 1, BRP := baud - 1, SILM := true }
    (st.vars, btr, st.res)

/-! ## Auxiliary definitions for the statements -/

/-- The padding `align_buffer` computes for a buffer of length `L`. -/
def padding (L : Nat) : Nat := MMCSD_BLOCK_SIZE - L % MMCSD_BLOCK_SIZE

/-- The content of the accumulating buffer after `align_buffer` has padded it. -/
def padded (buf : Nat → Char) (L : Nat) : Nat → Char := fun j =>
  if j = L + padding L - 1 then '\n'
  else if j = L + padding L - 2 then '\r'
  else if L - 1 ≤ j ∧ j < L + padding L - 2 then ' '
  else if j = L - 2 then ','
  else buf j

/-- The accumulating buffer ends on a complete line: its last two bytes are CR LF. -/
def ends_crlf (g : Globals) : Prop :=
  2 ≤ g.sd_buffer_length ∧ g.sd_buffer (g.sd_buffer_length - 2) = '\r' ∧
    g.sd_buffer (g.sd_buffer_length - 1) = '\n'

instance (g : Globals) : Decidable (ends_crlf g) :=
  inferInstanceAs (Decidable (2 ≤ g.sd_buffer_length ∧
    g.sd_buffer (g.sd_buffer_length - 2) = '\r' ∧ g.sd_buffer (g.sd_buffer_length - 1) = '\n'))

/-- The globals after `align_buffer` has padded the accumulating buffer. -/
def with_padding (g : Globals) : Globals :=
  { g with sd_buffer := padded g.sd_buffer g.sd_buffer_length,
           sd_buffer_length := g.sd_buffer_length + padding g.sd_buffer_length }

/-- The globals and the value `align_buffer` returns, in closed form. -/
def aligned (g : Globals) : Globals × Int :=
  if ends_crlf g then (with_padding g, 1) else (g, 0)

/-- The globals after `copy_buffer` and the raising of the pending flag, in closed form. -/
def handed_off (a : Globals) : Globals :=
  { a with sd_buffer_for_write := fun j => if j < a.sd_buffer_length then a.sd_buffer j
                                           else a.sd_buffer_for_write j,
           sd_buffer_length_for_write := a.sd_buffer_length,
           sd_buffer_length := 0,
           bReqWrite := 1 }

/-- The accumulating buffer after the string `s` has been copied at offset `off`. -/
def appended (buf : Nat → Char) (off : Nat) (s : List Char) : Nat → Char := fun j =>
  if off ≤ j ∧ j < off + s.length then s.getD (j - off) '\x00' else buf j

/-- A buffer holding the characters of `s` from index 0 on, and `fill` after them. -/
def buffer_of (s : List Char) (fill : Char) : Nat → Char := fun j => s.getD j fill

/-- Globals with the given accumulating buffer and length, pending buffer and
length and pending flag; logging armed, no fault, default configuration. -/
def globals_of (buf : Nat → Char) (len : Nat) (pend : Nat → Char) (plen : Nat) (req : Nat) :
    Globals :=
  { bLogging := 1, sd_buffer := buf, sd_buffer_length := len, sd_buffer_for_write := pend,
    bReqWrite := req, sd_buffer_length_for_write := plen, bWriteFault := 0,
    bIncludeTimestamp := 1, iFilterMask := 0, iFilterValue := 0, bLogStdMsgs := 1,
    bLogExtMsgs := 1 }

/-- Example: the accumulating buffer holds the single line CR LF, nothing is pending. -/
def ex_crlf : Globals := globals_of (buffer_of ['\r', '\n'] 'x') 2 (buffer_of [] 'y') 0 0

/-- Example: a full block of 512 bytes ending in CR LF, nothing pending. -/
def ex_block : Globals :=
  globals_of (fun j => if j = 510 then '\r' else if j = 511 then '\n' else 'x') 512
    (buffer_of [] 'y') 0 0

/-- Example: an accumulating buffer of 511 bytes ending in CR LF, nothing pending. -/
def ex_short_block : Globals :=
  globals_of (fun j => if j = 509 then '\r' else if j = 510 then '\n' else 'x') 511
    (buffer_of [] 'y') 0 0

/-- Example: a handoff of the two bytes `zz` is pending while the accumulating
buffer holds the two bytes `ab`. -/
def ex_pending : Globals := globals_of (buffer_of ['a', 'b'] 'x') 2 (buffer_of ['z', 'z'] 'y') 2 1

/-- Example: one byte below the flush threshold, nothing pending. -/
def ex_nearly_full : Globals :=
  globals_of (buffer_of [] 'x') (SD_WRITE_BUFFER_FLUSH_LIMIT - 1) (buffer_of [] 'y') 0 0

/-- The globals after `fwrite_string` has copied `s` and advanced the length,
before the flush limit is checked. -/
def with_appended (g : Globals) (s : List Char) : Globals :=
  { g with sd_buffer := appended g.sd_buffer g.sd_buffer_length s,
           sd_buffer_length := g.sd_buffer_length + s.length }

/-- The globals as `request_write` marks them on entry: fault 1 if a write
request is pending. -/
def marked (g : Globals) : Globals :=
  if g.bReqWrite ≠ 0 then { g with bWriteFault := 1 } else g

/-- The number a list of uppercase hexadecimal digits denotes, most significant
digit first. -/
def hex_value (s : List Char) : Nat :=
  s.foldl (fun acc c => 16 * acc + upperHexDigits.indexOf c) 0

/-- The list `s` is a representation of `n` in uppercase hexadecimal digits. -/
def is_upper_hex_of (s : List Char) (n : Nat) : Prop :=
  s ≠ [] ∧ (∀ c ∈ s, c ∈ upperHexDigits) ∧ hex_value s = n

/-- The data columns of a frame: for each of the first `n` payload bytes, in
index order, a comma and the conversion `%02X` of the byte. -/
def data_columns (rxmsg : CANRxFrame) (n : Nat) : List (List Char) :=
  (List.range n).map fun i => ',' :: fmt_02X (rxmsg.data8 i % 256)

/-- The timestamp prefix of a line: the tick and a comma when the option is on. -/
def tick_column (g : Globals) (now : Nat) : List Char :=
  if g.bIncludeTimestamp ≠ 0 then fmt_d (int_of_systime now) ++ [','] else []

/-- Example: the standard frame id=0x123, dlc=2, data=[0xAB,0xCD], the other
bits of the identifier word being 0. -/
def ex_std_frame : CANRxFrame :=
  { DLC := 2, IDE := false, ident := 0x123, data8 := fun i => if i = 0 then 0xAB else 0xCD }

/-- Example: the same standard frame in a record whose identifier word still
holds the upper bits of an extended identifier 0x18FE0000. -/
def ex_std_frame_stale : CANRxFrame :=
  { DLC := 2, IDE := false, ident := 0x18FE0123,
    data8 := fun i => if i = 0 then 0xAB else 0xCD }

/-- Example: a standard frame id=0x7FF without payload, in a record whose
identifier word still holds upper bits (0x1ABCD7FF). -/
def ex_std_frame_high : CANRxFrame :=
  { DLC := 0, IDE := false, ident := 0x1ABCD7FF, data8 := fun _ => 0 }

/-- Example: the standard frame id=0x7FF without payload, the other bits of the
identifier word being 0. -/
def ex_std_frame_clear : CANRxFrame :=
  { DLC := 0, IDE := false, ident := 0x7FF, data8 := fun _ => 0 }

/-- Example: the extended frame id=0x18FE0123, dlc=2, data=[0xAB,0xCD]; its
identifier word and payload are those of `ex_std_frame_stale`. -/
def ex_ext_twin : CANRxFrame :=
  { DLC := 2, IDE := true, ident := 0x18FE0123,
    data8 := fun i => if i = 0 then 0xAB else 0xCD }

/-- Example: logging armed with mask=0, value=0, timestamp off, both kinds on. -/
def ex_cfg_plain : Globals :=
  { globals_of (buffer_of [] 'x') 0 (buffer_of [] 'y') 0 0 with bIncludeTimestamp := 0 }

/-- Reader of the data columns of a CSV record: while the text goes on with a
comma and two digits, the byte the two digits denote. -/
def parse_data : List Char → List Nat
  | c :: hi :: lo :: rest => if c = ',' then hex_value [hi, lo] :: parse_data rest else []
  | _ => []

/-- The characters of an identifier column: anything but a comma or CR. -/
def in_column (c : Char) : Bool := c ≠ ',' && c ≠ '\r'

/-- Reader of a CSV record: the text up to the first comma is skipped when the
record has a timestamp column; then the identifier is read up to the next comma
or CR, and the data columns after it. -/
def parse_record (timestamp : Bool) (line : List Char) : Nat × List Nat :=
  let body := if timestamp then (line.dropWhile fun c => c ≠ ',').drop 1 else line
  (hex_value (body.takeWhile in_column), parse_data (body.dropWhile in_column))

/-- The payload of a frame: its first `dlc` data bytes. -/
def payload (rxmsg : CANRxFrame) : List Nat :=
  (List.range rxmsg.dlc).map fun i => rxmsg.data8 i % 256

/-- Example: logging armed with the timestamp on, default filter. -/
def ex_cfg_timestamp : Globals := globals_of (buffer_of [] 'x') 0 (buffer_of [] 'y') 0 0

/-- Example: a logger with a handoff of `zz` pending and no fault. -/
def ex_logger_pending : Logger :=
  { vars := ex_pending, submitted := [], stLastWriting := 0 }

/-- Example: a logger before the session starts: empty buffers, logging not yet
armed, timestamp on, an earlier fault value still in the flag. -/
def ex_logger_boot : Logger :=
  { vars := { globals_of (buffer_of [] 'x') 0 (buffer_of [] 'y') 7 0 with
              bLogging := 0, bWriteFault := 2 },
    submitted := [], stLastWriting := 0 }

/-- Example: a bit-timing register before configuration. -/
def ex_btr : BTR := { SJW := 0, TS2 := 2, TS1 := 1, BRP := 13, SILM := false }

/-- The fault flag after the block `if (bReqWrite) { ... }` of the writer loop. -/
def fault_after_write (g : Globals) (written : Nat) (sync_ok : Bool) : Nat :=
  if sync_ok = false then 2
  else if written ≠ g.sd_buffer_length_for_write then 2
  else g.bWriteFault

/-- The logger after the block `if (bReqWrite) { ... }` of the writer loop, in
closed form. -/
def written_out (s : Logger) (written : Nat) (sync_ok : Bool) (now : Nat) : Logger :=
  { vars := { s.vars with bReqWrite := 0,
                          bWriteFault := fault_after_write s.vars written sync_ok },
    submitted := s.submitted
      ++ [contents s.vars.sd_buffer_for_write s.vars.sd_buffer_length_for_write],
    stLastWriting := now % 2 ^ 32 }

theorem padding_pos (L : Nat) : 1 ≤ padding L := by
  unfold padding MMCSD_BLOCK_SIZE
  have := Nat.mod_lt L (show 0 < 512 by norm_num)
  omega

theorem padding_le (L : Nat) : padding L ≤ 512 := by
  unfold padding MMCSD_BLOCK_SIZE
  omega

theorem padding_mod (L : Nat) : (L + padding L) % 512 = 0 := by
  unfold padding MMCSD_BLOCK_SIZE
  omega

theorem align_fill_eq (L : Nat) : ∀ (n i : Nat) (buf : Nat → Char),
    2 ≤ L + i → L + i - 2 + n ≤ SD_WRITE_BUFFER →
    align_fill L n i buf =
      some (fun j => if L + i - 2 ≤ j ∧ j < L + i - 2 + n then ' ' else buf j)
  | 0, i, buf, _, _ => by
    simp only [align_fill]
    congr 1
    funext j
    have : ¬ (L + i - 2 ≤ j ∧ j < L + i - 2 + 0) := by omega
    simp only [this, if_false]
  | n + 1, i, buf, h2, hb => by
    have hlt : L + i - 2 < SD_WRITE_BUFFER := by omega
    simp only [align_fill, store, if_pos hlt, Option.bind]
    rw [align_fill_eq L n (i + 1) _ (by omega) (by omega)]
    congr 1
    funext j
    by_cases h1 : L + i - 2 ≤ j ∧ j < L + i - 2 + (n + 1)
    · rw [if_pos h1]
      by_cases h3 : L + (i + 1) - 2 ≤ j ∧ j < L + (i + 1) - 2 + n
      · rw [if_pos h3]
      · rw [if_neg h3, if_pos (by omega)]
    · rw [if_neg h1, if_neg (by omega), if_neg (by omega)]

theorem align_buffer_padded (g : Globals) (h2 : 2 ≤ g.sd_buffer_length)
    (hcr : g.sd_buffer (g.sd_buffer_length - 2) = '\r')
    (hlf : g.sd_buffer (g.sd_buffer_length - 1) = '\n')
    (hroom : g.sd_buffer_length + padding g.sd_buffer_length ≤ SD_WRITE_BUFFER) :
    align_buffer g = some (with_padding g, 1) := by
  have hp := padding_pos g.sd_buffer_length
  have hcap : SD_WRITE_BUFFER < WORD_RANGE := by decide
  unfold align_buffer
  rw [if_neg (by omega)]
  simp only [load, store, if_pos (show g.sd_buffer_length - 2 < SD_WRITE_BUFFER by omega),
    if_pos (show g.sd_buffer_length - 1 < SD_WRITE_BUFFER by omega), Option.bind, hcr, hlf,
    ne_eq, not_true_eq_false, if_false]
  rw [align_fill_eq _ _ _ _ (by omega) (by unfold padding at hroom hp; omega)]
  simp only [Option.bind]
  have e1 : g.sd_buffer_length + (MMCSD_BLOCK_SIZE - g.sd_buffer_length % MMCSD_BLOCK_SIZE) - 2
      < SD_WRITE_BUFFER := by unfold padding at hroom hp; omega
  have e2 : g.sd_buffer_length + (MMCSD_BLOCK_SIZE - g.sd_buffer_length % MMCSD_BLOCK_SIZE) - 1
      < SD_WRITE_BUFFER := by unfold padding at hroom hp; omega
  simp only [if_pos e1, if_pos e2]
  have e3 : (g.sd_buffer_length + (MMCSD_BLOCK_SIZE - g.sd_buffer_length % MMCSD_BLOCK_SIZE))
      % WORD_RANGE = g.sd_buffer_length + padding g.sd_buffer_length := by
    unfold padding at hroom ⊢
    exact Nat.mod_eq_of_lt (by omega)
  rw [e3]
  unfold with_padding
  congr 3
  funext j
  unfold padded
  unfold padding at hp hroom ⊢
  by_cases c1 : j = g.sd_buffer_length + (MMCSD_BLOCK_SIZE - g.sd_buffer_length % MMCSD_BLOCK_SIZE) - 1
  · simp only [c1, if_true]
  · by_cases c2 : j = g.sd_buffer_length + (MMCSD_BLOCK_SIZE - g.sd_buffer_length % MMCSD_BLOCK_SIZE) - 2
    · simp only [c2, if_true]
    · simp only [if_neg c1, if_neg c2]
      by_cases c3 : g.sd_buffer_length - 1 ≤ j ∧
          j < g.sd_buffer_length + (MMCSD_BLOCK_SIZE - g.sd_buffer_length % MMCSD_BLOCK_SIZE) - 2
      · rw [if_pos c3, if_pos (by omega)]
      · rw [if_neg c3, if_neg (by omega)]


theorem align_buffer_skipped (g : Globals) (hb : g.sd_buffer_length ≤ SD_WRITE_BUFFER)
    (h : ¬ ends_crlf g) : align_buffer g = some (g, 0) := by
  unfold align_buffer
  by_cases h2 : g.sd_buffer_length < 2
  · rw [if_pos h2]
  · rw [if_neg h2]
    simp only [load, if_pos (show g.sd_buffer_length - 2 < SD_WRITE_BUFFER by omega),
      if_pos (show g.sd_buffer_length - 1 < SD_WRITE_BUFFER by omega), Option.bind]
    by_cases hcr : g.sd_buffer (g.sd_buffer_length - 2) = '\r'
    · by_cases hlf : g.sd_buffer (g.sd_buffer_length - 1) = '\n'
      · exact absurd ⟨by omega, hcr, hlf⟩ h
      · simp only [hcr, ne_eq, not_true_eq_false, if_false, hlf, not_false_eq_true, if_true]
    · simp only [ne_eq, hcr, not_false_eq_true, if_true]

theorem align_buffer_eq (g : Globals)
    (hroom : g.sd_buffer_length + padding g.sd_buffer_length ≤ SD_WRITE_BUFFER) :
    align_buffer g = some (aligned g) := by
  have hp := padding_pos g.sd_buffer_length
  unfold aligned
  by_cases h : ends_crlf g
  · rw [if_pos h]
    exact align_buffer_padded g h.1 h.2.1 h.2.2 hroom
  · rw [if_neg h]
    exact align_buffer_skipped g (by omega) h

theorem aligned_length_le (g : Globals) :
    g.sd_buffer_length ≤ (aligned g).1.sd_buffer_length ∧
      (aligned g).1.sd_buffer_length ≤ g.sd_buffer_length + padding g.sd_buffer_length := by
  unfold aligned
  by_cases h : ends_crlf g
  · rw [if_pos h]
    exact ⟨Nat.le_add_right _ _, le_refl _⟩
  · rw [if_neg h]
    exact ⟨le_refl _, Nat.le_add_right _ _⟩

theorem aligned_frame (g : Globals) :
    (aligned g).1.sd_buffer_for_write = g.sd_buffer_for_write ∧
      (aligned g).1.sd_buffer_length_for_write = g.sd_buffer_length_for_write ∧
      (aligned g).1.bReqWrite = g.bReqWrite ∧
      (aligned g).1.bWriteFault = g.bWriteFault ∧
      (aligned g).1.bLogging = g.bLogging := by
  unfold aligned
  by_cases h : ends_crlf g
  · rw [if_pos h]
    exact ⟨rfl, rfl, rfl, rfl, rfl⟩
  · rw [if_neg h]
    exact ⟨rfl, rfl, rfl, rfl, rfl⟩

theorem copy_buffer_eq (a : Globals) (hb : a.sd_buffer_length ≤ SD_WRITE_BUFFER) :
    (copy_buffer a).bind (fun g3 => some { g3 with bReqWrite := 1 }) = some (handed_off a) := by
  simp only [copy_buffer, memcpy_buffer, if_pos hb, Option.bind, handed_off]

theorem request_write_eq (g : Globals)
    (hroom : g.sd_buffer_length + padding g.sd_buffer_length ≤ SD_WRITE_BUFFER) :
    request_write g =
      some (handed_off (aligned (if g.bReqWrite ≠ 0 then { g with bWriteFault := 1 } else g)).1) := by
  unfold request_write
  have hlen : (if g.bReqWrite ≠ 0 then { g with bWriteFault := 1 } else g).sd_buffer_length
      = g.sd_buffer_length := by
    by_cases h : g.bReqWrite ≠ 0
    · rw [if_pos h]
    · rw [if_neg h]
  simp only []
  rw [align_buffer_eq _ (by rw [hlen]; exact hroom)]
  have hle := (aligned_length_le (if g.bReqWrite ≠ 0 then { g with bWriteFault := 1 } else g)).2
  rw [hlen] at hle
  simp only [Option.bind]
  exact copy_buffer_eq _ (le_trans hle hroom)

theorem padded_below (buf : Nat → Char) (L i : Nat) (h : i < L - 2) : padded buf L i = buf i := by
  have hp := padding_pos L
  unfold padded
  rw [if_neg (by omega), if_neg (by omega), if_neg (by omega), if_neg (by omega)]

theorem padded_comma (buf : Nat → Char) (L : Nat) (h : 2 ≤ L) : padded buf L (L - 2) = ',' := by
  have hp := padding_pos L
  unfold padded
  rw [if_neg (by omega), if_neg (by omega), if_neg (by omega), if_pos rfl]

theorem padded_space (buf : Nat → Char) (L i : Nat) (h1 : L - 1 ≤ i) (h2 : i < L + padding L - 2) :
    padded buf L i = ' ' := by
  unfold padded
  rw [if_neg (by omega), if_neg (by omega), if_pos ⟨h1, h2⟩]

theorem padded_cr (buf : Nat → Char) (L : Nat) (h : 2 ≤ L) :
    padded buf L (L + padding L - 2) = '\r' := by
  have hp := padding_pos L
  unfold padded
  rw [if_neg (by omega), if_pos rfl]

theorem padded_lf (buf : Nat → Char) (L : Nat) : padded buf L (L + padding L - 1) = '\n' := by
  unfold padded
  rw [if_pos rfl]

theorem handed_off_pending_lt (a : Globals) (i : Nat) (h : i < a.sd_buffer_length) :
    (handed_off a).sd_buffer_for_write i = a.sd_buffer i := by
  unfold handed_off
  exact if_pos h

theorem handed_off_pending_ge (a : Globals) (i : Nat) (h : a.sd_buffer_length ≤ i) :
    (handed_off a).sd_buffer_for_write i = a.sd_buffer_for_write i := by
  unfold handed_off
  exact if_neg (by omega)

theorem padded_above (buf : Nat → Char) (L i : Nat) (h : L + padding L ≤ i) :
    padded buf L i = buf i := by
  have hp := padding_pos L
  unfold padded
  rw [if_neg (by omega), if_neg (by omega), if_neg (by omega), if_neg (by omega)]

theorem request_write_marked (g : Globals)
    (hroom : g.sd_buffer_length + padding g.sd_buffer_length ≤ SD_WRITE_BUFFER) :
    request_write g = some (handed_off (aligned (marked g)).1) :=
  request_write_eq g hroom

theorem marked_frame (g : Globals) :
    (marked g).sd_buffer = g.sd_buffer ∧ (marked g).sd_buffer_length = g.sd_buffer_length ∧
      (marked g).sd_buffer_for_write = g.sd_buffer_for_write ∧
      (marked g).bReqWrite = g.bReqWrite := by
  unfold marked
  by_cases h : g.bReqWrite ≠ 0
  · rw [if_pos h]
    exact ⟨rfl, rfl, rfl, rfl⟩
  · rw [if_neg h]
    exact ⟨rfl, rfl, rfl, rfl⟩

theorem aligned_buffer_above (g : Globals) (i : Nat)
    (h : g.sd_buffer_length + padding g.sd_buffer_length ≤ i) :
    (aligned g).1.sd_buffer i = g.sd_buffer i := by
  unfold aligned
  by_cases hc : ends_crlf g
  · rw [if_pos hc]
    exact padded_above _ _ _ h
  · rw [if_neg hc]

theorem fwrite_string_below (g : Globals) (s : List Char)
    (h : g.sd_buffer_length + s.length < SD_WRITE_BUFFER_FLUSH_LIMIT) :
    fwrite_string g s = some (with_appended g s) := by
  have hT : SD_WRITE_BUFFER_FLUSH_LIMIT = 49152 := rfl
  have hC : SD_WRITE_BUFFER = 50176 := rfl
  have hs : s.length % WORD_RANGE = s.length := Nat.mod_eq_of_lt (by unfold WORD_RANGE; omega)
  have hl : (g.sd_buffer_length + s.length) % WORD_RANGE = g.sd_buffer_length + s.length :=
    Nat.mod_eq_of_lt (by unfold WORD_RANGE; omega)
  unfold fwrite_string memcpy_string
  simp only [hs, hl]
  rw [if_pos (Or.inr (by omega))]
  simp only [Option.bind]
  rw [if_neg (by omega)]
  rfl

theorem fwrite_string_reach (g : Globals) (s : List Char)
    (h1 : SD_WRITE_BUFFER_FLUSH_LIMIT ≤ g.sd_buffer_length + s.length)
    (h2 : g.sd_buffer_length + s.length ≤ SD_WRITE_BUFFER) :
    fwrite_string g s = request_write (with_appended g s) := by
  have hC : SD_WRITE_BUFFER = 50176 := rfl
  have hs : s.length % WORD_RANGE = s.length := Nat.mod_eq_of_lt (by unfold WORD_RANGE; omega)
  have hl : (g.sd_buffer_length + s.length) % WORD_RANGE = g.sd_buffer_length + s.length :=
    Nat.mod_eq_of_lt (by unfold WORD_RANGE; omega)
  unfold fwrite_string memcpy_string
  simp only [hs, hl]
  rw [if_pos (Or.inr (by omega))]
  simp only [Option.bind]
  rw [if_pos (by omega)]
  rfl

/-! ## Lemmas on the conversions of `sprintf` -/

theorem upperHexDigits_mem : ∀ d, d < 16 → upperHexDigits.getD d '0' ∈ upperHexDigits := by
  decide

theorem upperHexDigits_indexOf :
    ∀ d, d < 16 → upperHexDigits.indexOf (upperHexDigits.getD d '0') = d := by
  decide

theorem upperHexDigits_ne_zero :
    ∀ d, d < 16 → 0 < d → upperHexDigits.getD d '0' ≠ '0' := by
  decide

theorem hex_value_append (s : List Char) (c : Char) :
    hex_value (s ++ [c]) = 16 * hex_value s + upperHexDigits.indexOf c := by
  unfold hex_value
  rw [List.foldl_append]
  rfl

theorem fmt_radix_hex (fuel : Nat) : ∀ n, n < fuel →
    is_upper_hex_of (fmt_radix upperHexDigits fuel n) n ∧
      ((fmt_radix upperHexDigits fuel n).head? = some '0' → n = 0) := by
  induction fuel with
  | zero => intro n h; omega
  | succ f ih =>
    intro n hn
    have hlen : upperHexDigits.length = 16 := rfl
    unfold fmt_radix
    rw [hlen]
    by_cases h16 : n < 16
    · rw [if_pos h16]
      refine ⟨⟨by simp, ?_, ?_⟩, ?_⟩
      · intro c hc
        rw [List.mem_singleton] at hc
        rw [hc]
        exact upperHexDigits_mem n h16
      · show 16 * 0 + upperHexDigits.indexOf (upperHexDigits.getD n '0') = n
        rw [upperHexDigits_indexOf n h16]
        omega
      · intro hz
        by_contra hne
        have hpos : 0 < n := Nat.pos_of_ne_zero hne
        apply upperHexDigits_ne_zero n h16 hpos
        simpa using hz
    · rw [if_neg h16]
      have hrec := ih (n / 16) (by omega)
      have hmod : n % 16 < 16 := Nat.mod_lt n (by norm_num)
      refine ⟨⟨by simp, ?_, ?_⟩, ?_⟩
      · intro c hc
        rw [List.mem_append, List.mem_singleton] at hc
        rcases hc with hc | hc
        · exact hrec.1.2.1 c hc
        · rw [hc]
          exact upperHexDigits_mem _ hmod
      · rw [hex_value_append, hrec.1.2.2, upperHexDigits_indexOf _ hmod]
        omega
      · intro hz
        rw [List.head?_append_of_ne_nil _ hrec.1.1] at hz
        have := hrec.2 hz
        omega

theorem fmt_X_spec (n : Nat) :
    is_upper_hex_of (fmt_X n) n ∧ ((fmt_X n).head? = some '0' → fmt_X n = ['0']) := by
  have h := fmt_radix_hex (n + 1) n (Nat.lt_succ_self n)
  refine ⟨h.1, ?_⟩
  intro hz
  have h0 : n = 0 := h.2 hz
  rw [h0]
  rfl

theorem fmt_02X_byte (b : Nat) (hb : b < 256) :
    fmt_02X b = [upperHexDigits.getD (b / 16) '0', upperHexDigits.getD (b % 16) '0'] := by
  have hlen : upperHexDigits.length = 16 := rfl
  unfold fmt_02X fmt_X
  by_cases h16 : b < 16
  · have e : fmt_radix upperHexDigits (b + 1) b = [upperHexDigits.getD b '0'] := by
      unfold fmt_radix
      rw [hlen, if_pos h16]
    rw [e, Nat.div_eq_of_lt h16, Nat.mod_eq_of_lt h16]
    rfl
  · have hq : b / 16 < 16 := by omega
    have e : fmt_radix upperHexDigits (b + 1) b
        = [upperHexDigits.getD (b / 16) '0', upperHexDigits.getD (b % 16) '0'] := by
      unfold fmt_radix
      rw [hlen, if_neg h16]
      have hb1 : b = (b - 1) + 1 := by omega
      rw [hb1]
      unfold fmt_radix
      rw [hlen, ← hb1, if_pos hq]
      rfl
    rw [e]
    rfl

theorem fmt_02X_spec (b : Nat) (hb : b < 256) :
    ∃ hi lo, fmt_02X b = [hi, lo] ∧ is_upper_hex_of [hi, lo] b := by
  have hq : b / 16 < 16 := by omega
  have hr : b % 16 < 16 := Nat.mod_lt b (by norm_num)
  refine ⟨_, _, fmt_02X_byte b hb, by simp, ?_, ?_⟩
  · intro c hc
    rw [List.mem_cons, List.mem_singleton] at hc
    rcases hc with hc | hc
    · rw [hc]
      exact upperHexDigits_mem _ hq
    · rw [hc]
      exact upperHexDigits_mem _ hr
  · show 16 * (16 * 0 + upperHexDigits.indexOf (upperHexDigits.getD (b / 16) '0'))
      + upperHexDigits.indexOf (upperHexDigits.getD (b % 16) '0') = b
    rw [upperHexDigits_indexOf _ hq, upperHexDigits_indexOf _ hr]
    omega

/-! ## The data buffering claims -/

/-- C3: on an accumulating buffer of length at least 2 whose last two bytes are
CR LF, with room for the padding inside the buffer, `align_buffer` returns 1 and
the new length is a multiple of the block size 512; the bytes below index
`len-2` are unchanged, index `len-2` holds a comma, every byte from index `len-1`
up to the last two is a space, and the last two bytes are CR LF. Nothing but the
accumulating buffer and its length changes. -/
theorem align_buffer_pads_to_block (g : Globals) (h2 : 2 ≤ g.sd_buffer_length)
    (hcr : g.sd_buffer (g.sd_buffer_length - 2) = '\r')
    (hlf : g.sd_buffer (g.sd_buffer_length - 1) = '\n')
    (hroom : g.sd_buffer_length + (MMCSD_BLOCK_SIZE - g.sd_buffer_length % MMCSD_BLOCK_SIZE)
      ≤ SD_WRITE_BUFFER) :
    ∃ g1, align_buffer g = some (g1, 1) ∧
      g1.sd_buffer_length % MMCSD_BLOCK_SIZE = 0 ∧
      g.sd_buffer_length < g1.sd_buffer_length ∧
      g1.sd_buffer_length ≤ SD_WRITE_BUFFER ∧
      (∀ i, i < g.sd_buffer_length - 2 → g1.sd_buffer i = g.sd_buffer i) ∧
      g1.sd_buffer (g.sd_buffer_length - 2) = ',' ∧
      (∀ i, g.sd_buffer_length - 1 ≤ i → i < g1.sd_buffer_length - 2 → g1.sd_buffer i = ' ') ∧
      g1.sd_buffer (g1.sd_buffer_length - 2) = '\r' ∧
      g1.sd_buffer (g1.sd_buffer_length - 1) = '\n' ∧
      g1 = { g with sd_buffer := g1.sd_buffer, sd_buffer_length := g1.sd_buffer_length } := by
  have hp := padding_pos g.sd_buffer_length
  refine ⟨_, align_buffer_padded g h2 hcr hlf hroom, ?_, ?_, hroom, ?_, ?_, ?_, ?_, ?_, rfl⟩
  · exact padding_mod g.sd_buffer_length
  · show g.sd_buffer_length < g.sd_buffer_length + padding g.sd_buffer_length
    omega
  · intro i hi
    exact padded_below _ _ _ hi
  · exact padded_comma _ _ h2
  · intro i h1 h3
    exact padded_space _ _ _ h1 h3
  · exact padded_cr _ _ h2
  · exact padded_lf _ _

/-- C3, at the buffer holding the single line CR LF: it is padded to 512 bytes. -/
theorem align_buffer_pads_to_block_witness :
    ∃ g1, align_buffer ex_crlf = some (g1, 1) ∧
      g1.sd_buffer_length % MMCSD_BLOCK_SIZE = 0 ∧
      ex_crlf.sd_buffer_length < g1.sd_buffer_length ∧
      g1.sd_buffer_length ≤ SD_WRITE_BUFFER ∧
      (∀ i, i < ex_crlf.sd_buffer_length - 2 → g1.sd_buffer i = ex_crlf.sd_buffer i) ∧
      g1.sd_buffer (ex_crlf.sd_buffer_length - 2) = ',' ∧
      (∀ i, ex_crlf.sd_buffer_length - 1 ≤ i → i < g1.sd_buffer_length - 2 →
        g1.sd_buffer i = ' ') ∧
      g1.sd_buffer (g1.sd_buffer_length - 2) = '\r' ∧
      g1.sd_buffer (g1.sd_buffer_length - 1) = '\n' ∧
      g1 = { ex_crlf with
             sd_buffer := g1.sd_buffer, sd_buffer_length := g1.sd_buffer_length } :=
  align_buffer_pads_to_block ex_crlf
    (by decide) (by decide) (by decide) (by decide)

/-- C10, as stated, fails: on the aligned buffer of 512 bytes ending in CR LF,
`align_buffer` returns 1, doubles the length to 1024 and overwrites the CR at
index 510 with a comma. -/
theorem align_buffer_not_idempotent :
    (ex_block.sd_buffer_length % 512 = 0 ∧ 0 < ex_block.sd_buffer_length ∧
      ex_block.sd_buffer (ex_block.sd_buffer_length - 2) = '\r' ∧
      ex_block.sd_buffer (ex_block.sd_buffer_length - 1) = '\n') ∧
    ∃ g1, align_buffer ex_block = some (g1, 1) ∧
      g1.sd_buffer_length = 1024 ∧ g1.sd_buffer_length ≠ ex_block.sd_buffer_length ∧
      g1.sd_buffer 510 = ',' ∧ g1.sd_buffer 510 ≠ ex_block.sd_buffer 510 := by
  refine ⟨by decide, _, align_buffer_padded ex_block (by decide) (by decide) (by decide)
    (by decide), by decide, by decide, ?_, ?_⟩
  · exact padded_comma ex_block.sd_buffer 512 (by decide)
  · have h : padded ex_block.sd_buffer 512 510 = ',' := padded_comma _ 512 (by decide)
    show padded ex_block.sd_buffer 512 510 ≠ ex_block.sd_buffer 510
    rw [h]
    decide

/-- C10, amended: on an accumulating buffer whose length is a non-zero multiple
of 512 and whose last two bytes are CR LF, with room for one more block,
`align_buffer` returns 1 and appends a whole block of padding: the length grows
by 512 (and so stays a multiple of 512), the bytes below index `len-2` are
unchanged, index `len-2` holds a comma, the 511 bytes from index `len-1` on are
spaces and the last two bytes are CR LF. -/
theorem align_buffer_on_aligned (g : Globals) (hpos : 0 < g.sd_buffer_length)
    (hmul : g.sd_buffer_length % MMCSD_BLOCK_SIZE = 0)
    (hcr : g.sd_buffer (g.sd_buffer_length - 2) = '\r')
    (hlf : g.sd_buffer (g.sd_buffer_length - 1) = '\n')
    (hroom : g.sd_buffer_length + MMCSD_BLOCK_SIZE ≤ SD_WRITE_BUFFER) :
    ∃ g1, align_buffer g = some (g1, 1) ∧
      g1.sd_buffer_length = g.sd_buffer_length + 512 ∧
      g1.sd_buffer_length % MMCSD_BLOCK_SIZE = 0 ∧
      (∀ i, i < g.sd_buffer_length - 2 → g1.sd_buffer i = g.sd_buffer i) ∧
      g1.sd_buffer (g.sd_buffer_length - 2) = ',' ∧
      (∀ i, g.sd_buffer_length - 1 ≤ i → i < g.sd_buffer_length + 510 → g1.sd_buffer i = ' ') ∧
      g1.sd_buffer (g.sd_buffer_length + 510) = '\r' ∧
      g1.sd_buffer (g.sd_buffer_length + 511) = '\n' := by
  have hpad : padding g.sd_buffer_length = 512 := by
    unfold padding
    rw [hmul]
    rfl
  have h2 : 2 ≤ g.sd_buffer_length := by
    unfold MMCSD_BLOCK_SIZE at hmul
    omega
  refine ⟨_, align_buffer_padded g h2 hcr hlf (by rw [hpad]; exact hroom), ?_, ?_, ?_, ?_, ?_,
    ?_, ?_⟩
  · show g.sd_buffer_length + padding g.sd_buffer_length = g.sd_buffer_length + 512
    rw [hpad]
  · exact padding_mod g.sd_buffer_length
  · intro i hi
    exact padded_below _ _ _ hi
  · exact padded_comma _ _ h2
  · intro i h1 h3
    exact padded_space _ _ _ h1 (by rw [hpad]; omega)
  · have h := padded_cr g.sd_buffer g.sd_buffer_length h2
    rw [hpad] at h
    exact h
  · have h := padded_lf g.sd_buffer g.sd_buffer_length
    rw [hpad] at h
    exact h

/-- C10 amended, at the aligned buffer of 512 bytes ending in CR LF. -/
theorem align_buffer_on_aligned_witness :
    ∃ g1, align_buffer ex_block = some (g1, 1) ∧
      g1.sd_buffer_length = ex_block.sd_buffer_length + 512 ∧
      g1.sd_buffer_length % MMCSD_BLOCK_SIZE = 0 ∧
      (∀ i, i < ex_block.sd_buffer_length - 2 → g1.sd_buffer i = ex_block.sd_buffer i) ∧
      g1.sd_buffer (ex_block.sd_buffer_length - 2) = ',' ∧
      (∀ i, ex_block.sd_buffer_length - 1 ≤ i → i < ex_block.sd_buffer_length + 510 →
        g1.sd_buffer i = ' ') ∧
      g1.sd_buffer (ex_block.sd_buffer_length + 510) = '\r' ∧
      g1.sd_buffer (ex_block.sd_buffer_length + 511) = '\n' :=
  align_buffer_on_aligned ex_block (by decide) (by decide) (by decide) (by decide) (by decide)

/-- C2, as stated, fails: with a handoff of `zz` pending and `ab` accumulated,
`request_write` sets the fault flag to 1 but goes on with the handoff: the
pending bytes are overwritten by `ab` and the accumulating length is reset. -/
theorem request_write_overwrites_pending :
    ex_pending.bReqWrite ≠ 0 ∧
    ∃ g1, request_write ex_pending = some g1 ∧ g1.bWriteFault = 1 ∧
      ex_pending.sd_buffer_for_write 0 = 'z' ∧ g1.sd_buffer_for_write 0 = 'a' ∧
      ex_pending.sd_buffer_for_write 1 = 'z' ∧ g1.sd_buffer_for_write 1 = 'b' ∧
      ex_pending.sd_buffer_length = 2 ∧ g1.sd_buffer_length = 0 :=
  ⟨by decide, _, request_write_eq ex_pending (by decide), by decide, by decide, by decide,
    by decide, by decide, by decide, by decide⟩

/-- C2, amended: in a state in which a handoff is already pending (and with room
for the padding), `request_write` sets the fault flag to OVERRUN (1) and then
carries out the handoff all the same: the accumulating buffer is aligned by
`align_buffer` and copied over the pending buffer, whose length and first bytes
are replaced by those of the aligned accumulating buffer; the accumulating
length becomes 0 and the pending flag stays set. -/
theorem request_write_when_pending (g : Globals) (hreq : g.bReqWrite ≠ 0)
    (hroom : g.sd_buffer_length + (MMCSD_BLOCK_SIZE - g.sd_buffer_length % MMCSD_BLOCK_SIZE)
      ≤ SD_WRITE_BUFFER) :
    ∃ a r g1, align_buffer { g with bWriteFault := 1 } = some (a, r) ∧
      request_write g = some g1 ∧
      g1.bWriteFault = 1 ∧
      g1.sd_buffer_length_for_write = a.sd_buffer_length ∧
      g.sd_buffer_length ≤ g1.sd_buffer_length_for_write ∧
      (∀ i, i < a.sd_buffer_length → g1.sd_buffer_for_write i = a.sd_buffer i) ∧
      (∀ i, a.sd_buffer_length ≤ i → g1.sd_buffer_for_write i = g.sd_buffer_for_write i) ∧
      g1.sd_buffer_length = 0 ∧
      g1.bReqWrite = 1 := by
  have hal := align_buffer_eq { g with bWriteFault := 1 } hroom
  have hrw := request_write_eq g hroom
  rw [if_pos hreq] at hrw
  have hle := (aligned_length_le { g with bWriteFault := 1 }).1
  have hfault : (aligned { g with bWriteFault := 1 }).1.bWriteFault = 1 :=
    (aligned_frame { g with bWriteFault := 1 }).2.2.2.1
  have hpend : (aligned { g with bWriteFault := 1 }).1.sd_buffer_for_write
      = g.sd_buffer_for_write :=
    (aligned_frame { g with bWriteFault := 1 }).1
  rcases hA : aligned { g with bWriteFault := 1 } with ⟨a, r⟩
  rw [hA] at hal hrw hle hfault hpend
  refine ⟨a, r, handed_off a, hal, hrw, hfault, rfl, hle, ?_, ?_, rfl, rfl⟩
  · intro i hi
    exact handed_off_pending_lt a i hi
  · intro i hi
    rw [handed_off_pending_ge a i hi]
    exact congrFun hpend i

/-- C2 amended, at the state with `zz` pending and `ab` accumulated. -/
theorem request_write_when_pending_witness :
    ∃ a r g1, align_buffer { ex_pending with bWriteFault := 1 } = some (a, r) ∧
      request_write ex_pending = some g1 ∧
      g1.bWriteFault = 1 ∧
      g1.sd_buffer_length_for_write = a.sd_buffer_length ∧
      ex_pending.sd_buffer_length ≤ g1.sd_buffer_length_for_write ∧
      (∀ i, i < a.sd_buffer_length → g1.sd_buffer_for_write i = a.sd_buffer i) ∧
      (∀ i, a.sd_buffer_length ≤ i →
        g1.sd_buffer_for_write i = ex_pending.sd_buffer_for_write i) ∧
      g1.sd_buffer_length = 0 ∧
      g1.bReqWrite = 1 :=
  request_write_when_pending ex_pending (by decide) (by decide)

/-- C4, as stated, fails: with 511 bytes ending in CR LF accumulated and nothing
pending, after `request_write` the pending length is 512, not 511, and the
pending byte at index 509 is a comma where the accumulating buffer held CR. -/
theorem request_write_pending_length_differs :
    ex_short_block.bReqWrite = 0 ∧
    ∃ g1, request_write ex_short_block = some g1 ∧
      ex_short_block.sd_buffer_length = 511 ∧ g1.sd_buffer_length_for_write = 512 ∧
      ex_short_block.sd_buffer 509 = '\r' ∧ g1.sd_buffer_for_write 509 = ',' :=
  ⟨by decide, _, request_write_eq ex_short_block (by decide), by decide, by decide, by decide,
    by decide⟩

/-- C4, amended: in a state with no handoff pending (and with room for the
padding), after `request_write` the pending length and the pending bytes are
those of the accumulating buffer as `align_buffer` leaves it: the length and
bytes before the call when the buffer does not end in CR LF, and otherwise the
length rounded up to the next multiple of 512, with the bytes below the final
CR unchanged; the accumulating length is 0, the pending flag is set and the
fault flag is unchanged. -/
theorem request_write_when_idle (g : Globals) (hreq : g.bReqWrite = 0)
    (hroom : g.sd_buffer_length + (MMCSD_BLOCK_SIZE - g.sd_buffer_length % MMCSD_BLOCK_SIZE)
      ≤ SD_WRITE_BUFFER) :
    ∃ a r g1, align_buffer g = some (a, r) ∧
      request_write g = some g1 ∧
      g1.sd_buffer_length_for_write = a.sd_buffer_length ∧
      (∀ i, i < a.sd_buffer_length → g1.sd_buffer_for_write i = a.sd_buffer i) ∧
      (¬ ends_crlf g → r = 0 ∧ g1.sd_buffer_length_for_write = g.sd_buffer_length ∧
        ∀ i, i < g.sd_buffer_length → g1.sd_buffer_for_write i = g.sd_buffer i) ∧
      (ends_crlf g → r = 1 ∧
        g1.sd_buffer_length_for_write
          = g.sd_buffer_length + (MMCSD_BLOCK_SIZE - g.sd_buffer_length % MMCSD_BLOCK_SIZE) ∧
        g1.sd_buffer_length_for_write % MMCSD_BLOCK_SIZE = 0 ∧
        (∀ i, i < g.sd_buffer_length - 2 → g1.sd_buffer_for_write i = g.sd_buffer i) ∧
        g1.sd_buffer_for_write (g.sd_buffer_length - 2) = ',' ∧
        (∀ i, g.sd_buffer_length - 1 ≤ i → i < g1.sd_buffer_length_for_write - 2 →
          g1.sd_buffer_for_write i = ' ') ∧
        g1.sd_buffer_for_write (g1.sd_buffer_length_for_write - 2) = '\r' ∧
        g1.sd_buffer_for_write (g1.sd_buffer_length_for_write - 1) = '\n') ∧
      g1.sd_buffer_length = 0 ∧
      g1.bReqWrite = 1 ∧
      g1.bWriteFault = g.bWriteFault := by
  have hal := align_buffer_eq g hroom
  have hrw := request_write_eq g hroom
  rw [if_neg (by rw [hreq]; decide)] at hrw
  have hp := padding_pos g.sd_buffer_length
  by_cases h : ends_crlf g
  · have ha : aligned g = (with_padding g, 1) := by
      unfold aligned
      rw [if_pos h]
    rw [ha] at hal hrw
    have h2 : 2 ≤ g.sd_buffer_length := h.1
    have hP : ∀ i, i < g.sd_buffer_length + padding g.sd_buffer_length →
        (handed_off (with_padding g)).sd_buffer_for_write i
          = padded g.sd_buffer g.sd_buffer_length i :=
      fun i hi => handed_off_pending_lt (with_padding g) i hi
    refine ⟨_, _, _, hal, hrw, rfl, ?_, fun hn => absurd h hn,
      fun _ => ⟨rfl, rfl, ?_, ?_, ?_, ?_, ?_, ?_⟩, rfl, rfl, rfl⟩
    · intro i hi
      exact handed_off_pending_lt _ i hi
    · exact padding_mod g.sd_buffer_length
    · intro i hi
      exact (hP i (by omega)).trans (padded_below _ _ _ hi)
    · exact (hP _ (by omega)).trans (padded_comma _ _ h2)
    · intro i h1 h3
      have h4 : i < g.sd_buffer_length + padding g.sd_buffer_length - 2 := h3
      exact (hP i (by omega)).trans (padded_space _ _ _ h1 h4)
    · exact (hP _ (by
        show g.sd_buffer_length + padding g.sd_buffer_length - 2 < _
        omega)).trans (padded_cr _ _ h2)
    · exact (hP _ (by
        show g.sd_buffer_length + padding g.sd_buffer_length - 1 < _
        omega)).trans (padded_lf _ _)
  · have ha : aligned g = (g, 0) := by
      unfold aligned
      rw [if_neg h]
    rw [ha] at hal hrw
    refine ⟨_, _, _, hal, hrw, rfl, ?_, fun _ => ⟨rfl, rfl, ?_⟩, fun hy => absurd hy h,
      rfl, rfl, rfl⟩
    · intro i hi
      exact handed_off_pending_lt _ i hi
    · intro i hi
      exact handed_off_pending_lt _ i hi

/-- C4 amended, at the state with 511 bytes ending in CR LF accumulated. -/
theorem request_write_when_idle_witness :
    ∃ a r g1, align_buffer ex_short_block = some (a, r) ∧
      request_write ex_short_block = some g1 ∧
      g1.sd_buffer_length_for_write = a.sd_buffer_length ∧
      (∀ i, i < a.sd_buffer_length → g1.sd_buffer_for_write i = a.sd_buffer i) ∧
      (¬ ends_crlf ex_short_block → r = 0 ∧
        g1.sd_buffer_length_for_write = ex_short_block.sd_buffer_length ∧
        ∀ i, i < ex_short_block.sd_buffer_length →
          g1.sd_buffer_for_write i = ex_short_block.sd_buffer i) ∧
      (ends_crlf ex_short_block → r = 1 ∧
        g1.sd_buffer_length_for_write
          = ex_short_block.sd_buffer_length
            + (MMCSD_BLOCK_SIZE - ex_short_block.sd_buffer_length % MMCSD_BLOCK_SIZE) ∧
        g1.sd_buffer_length_for_write % MMCSD_BLOCK_SIZE = 0 ∧
        (∀ i, i < ex_short_block.sd_buffer_length - 2 →
          g1.sd_buffer_for_write i = ex_short_block.sd_buffer i) ∧
        g1.sd_buffer_for_write (ex_short_block.sd_buffer_length - 2) = ',' ∧
        (∀ i, ex_short_block.sd_buffer_length - 1 ≤ i →
          i < g1.sd_buffer_length_for_write - 2 → g1.sd_buffer_for_write i = ' ') ∧
        g1.sd_buffer_for_write (g1.sd_buffer_length_for_write - 2) = '\r' ∧
        g1.sd_buffer_for_write (g1.sd_buffer_length_for_write - 1) = '\n') ∧
      g1.sd_buffer_length = 0 ∧
      g1.bReqWrite = 1 ∧
      g1.bWriteFault = ex_short_block.bWriteFault :=
  request_write_when_idle ex_short_block (by decide) (by decide)

/-- C5: no line can overflow the accumulating buffer. From an accumulating
length below the flush limit T (49152) and for a line of at most 64 bytes,
`fwrite_string`, together with the handoff and the alignment padding it may
trigger, accesses the buffers within their bounds only (the result is `some`),
leaves every cell from index CAP (50176) on as it was, and returns with the
accumulating length below T again; CAP is a multiple of 512 and
CAP - T ≥ 64 + 512. -/
theorem fwrite_string_in_bounds (g : Globals) (line : List Char)
    (hlen : g.sd_buffer_length < SD_WRITE_BUFFER_FLUSH_LIMIT) (hline : line.length ≤ 64) :
    (∃ g1, fwrite_string g line = some g1 ∧
      g1.sd_buffer_length < SD_WRITE_BUFFER_FLUSH_LIMIT ∧
      (∀ i, SD_WRITE_BUFFER ≤ i → g1.sd_buffer i = g.sd_buffer i) ∧
      (∀ i, SD_WRITE_BUFFER ≤ i → g1.sd_buffer_for_write i = g.sd_buffer_for_write i)) ∧
    SD_WRITE_BUFFER % MMCSD_BLOCK_SIZE = 0 ∧
    64 + MMCSD_BLOCK_SIZE ≤ SD_WRITE_BUFFER - SD_WRITE_BUFFER_FLUSH_LIMIT := by
  have hT : SD_WRITE_BUFFER_FLUSH_LIMIT = 49152 := rfl
  have hC : SD_WRITE_BUFFER = 50176 := rfl
  refine ⟨?_, by decide, by decide⟩
  have happ : ∀ i, SD_WRITE_BUFFER ≤ i →
      appended g.sd_buffer g.sd_buffer_length line i = g.sd_buffer i := by
    intro i hi
    unfold appended
    rw [if_neg (by omega)]
  by_cases hlt : g.sd_buffer_length + line.length < SD_WRITE_BUFFER_FLUSH_LIMIT
  · exact ⟨_, fwrite_string_below g line hlt, hlt, happ, fun _ _ => rfl⟩
  · have hroom : (with_appended g line).sd_buffer_length
        + padding (with_appended g line).sd_buffer_length ≤ SD_WRITE_BUFFER := by
      show g.sd_buffer_length + line.length + padding (g.sd_buffer_length + line.length)
        ≤ SD_WRITE_BUFFER
      unfold padding MMCSD_BLOCK_SIZE
      omega
    have hrw := request_write_marked (with_appended g line) hroom
    rw [← fwrite_string_reach g line (by omega) (by omega)] at hrw
    have hm := marked_frame (with_appended g line)
    have hroom2 : (marked (with_appended g line)).sd_buffer_length
        + padding (marked (with_appended g line)).sd_buffer_length ≤ SD_WRITE_BUFFER := by
      rw [hm.2.1]
      exact hroom
    refine ⟨_, hrw, ?_, ?_, ?_⟩
    · show 0 < SD_WRITE_BUFFER_FLUSH_LIMIT
      decide
    · intro i hi
      show (aligned (marked (with_appended g line))).1.sd_buffer i = g.sd_buffer i
      rw [aligned_buffer_above _ i (le_trans hroom2 hi), hm.1]
      exact happ i hi
    · intro i hi
      have hle := (aligned_length_le (marked (with_appended g line))).2
      rw [handed_off_pending_ge _ i (le_trans (le_trans hle hroom2) hi),
        (aligned_frame (marked (with_appended g line))).1, hm.2.2.1]
      rfl

/-- C5, at the state one byte below the flush limit and the line `123` CR LF. -/
theorem fwrite_string_in_bounds_witness :
    (∃ g1, fwrite_string ex_nearly_full ['1', '2', '3', '\r', '\n'] = some g1 ∧
      g1.sd_buffer_length < SD_WRITE_BUFFER_FLUSH_LIMIT ∧
      (∀ i, SD_WRITE_BUFFER ≤ i → g1.sd_buffer i = ex_nearly_full.sd_buffer i) ∧
      (∀ i, SD_WRITE_BUFFER ≤ i →
        g1.sd_buffer_for_write i = ex_nearly_full.sd_buffer_for_write i)) ∧
    SD_WRITE_BUFFER % MMCSD_BLOCK_SIZE = 0 ∧
    64 + MMCSD_BLOCK_SIZE ≤ SD_WRITE_BUFFER - SD_WRITE_BUFFER_FLUSH_LIMIT :=
  fwrite_string_in_bounds ex_nearly_full ['1', '2', '3', '\r', '\n'] (by decide) (by decide)

/-- C6, as stated, fails: from the length 49151 the string `ab` fits in the
buffer (49153 ≤ CAP), yet `fwrite_string` returns with the accumulating length
0, not 49153, because the flush limit was reached and the buffer handed off. -/
theorem fwrite_string_length_reset :
    ex_nearly_full.sd_buffer_length + ['a', 'b'].length ≤ SD_WRITE_BUFFER ∧
    ∃ g1, fwrite_string ex_nearly_full ['a', 'b'] = some g1 ∧
      g1.sd_buffer_length = 0 ∧
      ex_nearly_full.sd_buffer_length + ['a', 'b'].length = 49153 ∧
      g1.sd_buffer_length_for_write = 49153 := by
  refine ⟨by decide, handed_off (aligned (marked (with_appended ex_nearly_full ['a', 'b']))).1,
    ?_, rfl, by decide, ?_⟩
  · rw [fwrite_string_reach ex_nearly_full _ (by decide) (by decide)]
    exact request_write_marked _ (by decide)
  · decide

/-- C6, amended: for a string of `k` bytes with `len + k` below the flush limit
T, after `fwrite_string` the accumulating length is the length before plus
exactly `k`; when `len + k` reaches T (within CAP, with room for the padding),
`fwrite_string` hands the buffer off before it returns: the accumulating length
is 0, the pending flag is set and the pending length is at least `len + k`. -/
theorem fwrite_string_length (g : Globals) (s : List Char)
    (hcap : g.sd_buffer_length + s.length ≤ SD_WRITE_BUFFER) :
    (g.sd_buffer_length + s.length < SD_WRITE_BUFFER_FLUSH_LIMIT →
      ∃ g1, fwrite_string g s = some g1 ∧
        g1.sd_buffer_length = g.sd_buffer_length + s.length) ∧
    (SD_WRITE_BUFFER_FLUSH_LIMIT ≤ g.sd_buffer_length + s.length →
      g.sd_buffer_length + s.length
        + (MMCSD_BLOCK_SIZE - (g.sd_buffer_length + s.length) % MMCSD_BLOCK_SIZE)
        ≤ SD_WRITE_BUFFER →
      ∃ g1, fwrite_string g s = some g1 ∧ g1.sd_buffer_length = 0 ∧ g1.bReqWrite = 1 ∧
        g.sd_buffer_length + s.length ≤ g1.sd_buffer_length_for_write) := by
  constructor
  · intro hlt
    exact ⟨_, fwrite_string_below g s hlt, rfl⟩
  · intro hge hroom
    have hrw := request_write_marked (with_appended g s) hroom
    rw [← fwrite_string_reach g s hge hcap] at hrw
    refine ⟨_, hrw, rfl, rfl, ?_⟩
    have hle := (aligned_length_le (marked (with_appended g s))).1
    rw [(marked_frame (with_appended g s)).2.1] at hle
    exact hle

/-- C6 amended, at the empty buffer and the line `123` CR LF. -/
theorem fwrite_string_length_witness :
    (ex_crlf.sd_buffer_length + ['1', '2', '3', '\r', '\n'].length
        < SD_WRITE_BUFFER_FLUSH_LIMIT →
      ∃ g1, fwrite_string ex_crlf ['1', '2', '3', '\r', '\n'] = some g1 ∧
        g1.sd_buffer_length = ex_crlf.sd_buffer_length + ['1', '2', '3', '\r', '\n'].length) ∧
    (SD_WRITE_BUFFER_FLUSH_LIMIT
        ≤ ex_crlf.sd_buffer_length + ['1', '2', '3', '\r', '\n'].length →
      ex_crlf.sd_buffer_length + ['1', '2', '3', '\r', '\n'].length
        + (MMCSD_BLOCK_SIZE
          - (ex_crlf.sd_buffer_length + ['1', '2', '3', '\r', '\n'].length) % MMCSD_BLOCK_SIZE)
        ≤ SD_WRITE_BUFFER →
      ∃ g1, fwrite_string ex_crlf ['1', '2', '3', '\r', '\n'] = some g1 ∧
        g1.sd_buffer_length = 0 ∧ g1.bReqWrite = 1 ∧
        ex_crlf.sd_buffer_length + ['1', '2', '3', '\r', '\n'].length
          ≤ g1.sd_buffer_length_for_write) :=
  fwrite_string_length ex_crlf ['1', '2', '3', '\r', '\n'] (by decide)

/-! ## The receiver claims -/

theorem can1_rx_data_eq (rxmsg : CANRxFrame) : ∀ (n i : Nat) (s : List Char), i + n ≤ 8 →
    can1_rx_data rxmsg n i s =
      some (s ++ ((List.range' i n).map
        fun k => ',' :: fmt_02X (rxmsg.data8 k % 256)).flatten) := by
  intro n
  induction n with
  | zero =>
    intro i s _
    simp [can1_rx_data]
  | succ n ih =>
    intro i s h
    have hi : i < 8 := by omega
    unfold can1_rx_data
    simp only [CANRxFrame.data8_at, if_pos hi, Option.bind]
    rw [ih (i + 1) _ (by omega), List.range'_succ]
    simp

theorem can1_rx_line_eq (g : Globals) (now : Nat) (rxmsg : CANRxFrame) (hdlc : rxmsg.dlc ≤ 8) :
    can1_rx_line g now rxmsg =
      some (tick_column g now ++ fmt_X rxmsg.EID
        ++ (data_columns rxmsg rxmsg.dlc).flatten ++ ['\r', '\n']) := by
  unfold can1_rx_line tick_column data_columns
  simp only []
  rw [can1_rx_data_eq rxmsg rxmsg.dlc 0 _ (by omega), List.range_eq_range']
  by_cases hts : g.bIncludeTimestamp ≠ 0
  · simp [hts]
  · simp [hts]

theorem sid_of_eid (m : CANRxFrame) : m.SID = m.EID % 2 ^ 11 := by
  unfold CANRxFrame.SID CANRxFrame.EID
  exact (Nat.mod_mod_of_dvd m.ident (by norm_num)).symm

theorem identifier_eq_eid (m : CANRxFrame) (hid : m.IDE = true ∨ m.EID < 2 ^ 11) :
    m.identifier = m.EID := by
  unfold CANRxFrame.identifier
  by_cases hide : m.IDE = true
  · rw [if_pos hide]
  · rw [if_neg hide, sid_of_eid]
    rcases hid with h | h
    · exact absurd h hide
    · exact Nat.mod_eq_of_lt h

/-- Shape of the line of a frame whose identifier word holds the identifier of
the frame and nothing else (an extended frame, or a standard frame with the
bits above the 11-bit identifier clear), with `dlc` in 0..8: the column
`<tick>,` exactly when the timestamp option is on, then the identifier of the
frame in uppercase hexadecimal digits without leading zeros, then for each of
the `dlc` payload bytes in index order a comma and exactly two uppercase
hexadecimal digits representing the byte, then CR LF; for `dlc = 0` just the
(optionally preceded) identifier and CR LF. -/
theorem can1_rx_line_shape (g : Globals) (now : Nat) (rxmsg : CANRxFrame)
    (hdlc : rxmsg.dlc ≤ 8) (hid : rxmsg.IDE = true ∨ rxmsg.EID < 2 ^ 11) :
    ∃ (idcol : List Char) (cols : List (List Char)),
      can1_rx_line g now rxmsg =
        some ((if g.bIncludeTimestamp ≠ 0 then fmt_d (int_of_systime now) ++ [','] else [])
          ++ idcol ++ cols.flatten ++ ['\r', '\n']) ∧
      is_upper_hex_of idcol rxmsg.identifier ∧
      (idcol.head? = some '0' → idcol = ['0']) ∧
      cols.length = rxmsg.dlc ∧
      (∀ i, i < rxmsg.dlc → ∃ hi lo, cols[i]? = some [',', hi, lo] ∧
        is_upper_hex_of [hi, lo] (rxmsg.data8 i % 256)) ∧
      (rxmsg.dlc = 0 →
        can1_rx_line g now rxmsg =
          some ((if g.bIncludeTimestamp ≠ 0 then fmt_d (int_of_systime now) ++ [','] else [])
            ++ idcol ++ ['\r', '\n'])) := by
  have hline := can1_rx_line_eq g now rxmsg hdlc
  have hspec := fmt_X_spec rxmsg.EID
  refine ⟨fmt_X rxmsg.EID, data_columns rxmsg rxmsg.dlc, hline, ?_, hspec.2, ?_, ?_, ?_⟩
  · rw [identifier_eq_eid rxmsg hid]
    exact hspec.1
  · simp [data_columns]
  · intro i hi
    obtain ⟨a, b, hab, hspec⟩ := fmt_02X_spec (rxmsg.data8 i % 256) (Nat.mod_lt _ (by norm_num))
    refine ⟨a, b, ?_, hspec⟩
    simp [data_columns, hi, hab]
  · intro h0
    rw [hline, h0]
    simp [data_columns, tick_column]

/-- C7: the code at a recorded standard frame whose record holds upper
identifier bits. The frame is standard, without payload, its identifier is
0x7FF and it passes the acceptance test; the line formatted is `1ABCD7FF` CR LF
(`7,1ABCD7FF` CR LF with the timestamp on): its identifier column denotes
0x1ABCD7FF, the whole identifier word, not the identifier 0x7FF of the frame.
With the upper bits clear the line is `7FF` CR LF. The defect is the one of C8:
the formatter prints `rxmsg.EID` whatever the kind of the frame. -/
theorem can1_rx_line_identifier_column :
    ex_std_frame_high.IDE = false ∧ ex_std_frame_high.dlc = 0 ∧
    ex_std_frame_high.identifier = 0x7FF ∧
    can1_rx_accept ex_cfg_plain ex_std_frame_high = true ∧
    can1_rx_line ex_cfg_plain 7 ex_std_frame_high = some "1ABCD7FF\r\n".toList ∧
    can1_rx_line ex_cfg_timestamp 7 ex_std_frame_high = some "7,1ABCD7FF\r\n".toList ∧
    hex_value "1ABCD7FF".toList = 0x1ABCD7FF ∧
    hex_value "1ABCD7FF".toList ≠ ex_std_frame_high.identifier ∧
    ex_std_frame_clear.identifier = ex_std_frame_high.identifier ∧
    can1_rx_line ex_cfg_plain 7 ex_std_frame_clear = some "7FF\r\n".toList := by
  decide

/-- C8: the code at a standard frame whose record still holds upper identifier
bits. The frame is standard with `SID = 0x123`, it passes the filter (which
tests `SID`) and is recorded, but the identifier column printed is that of the
29-bit view `EID`: the line is `18FE0123,AB,CD` CR LF, not `123,AB,CD` CR LF.
With the upper bits clear the line is `123,AB,CD` CR LF. -/
theorem can1_rx_line_standard_prints_eid :
    ex_std_frame_stale.IDE = false ∧ ex_std_frame_stale.SID = 0x123 ∧
    can1_rx_accept ex_cfg_plain ex_std_frame_stale = true ∧
    can1_rx_line ex_cfg_plain 7 ex_std_frame_stale = some "18FE0123,AB,CD\r\n".toList ∧
    can1_rx_line ex_cfg_plain 7 ex_std_frame_stale ≠ some "123,AB,CD\r\n".toList ∧
    ex_std_frame.SID = ex_std_frame_stale.SID ∧
    can1_rx_line ex_cfg_plain 7 ex_std_frame = some "123,AB,CD\r\n".toList := by
  decide

/-! ## Order and content through a handoff -/

theorem contents_length (f : Nat → Char) (n : Nat) : (contents f n).length = n := by
  simp [contents]

theorem contents_add (f : Nat → Char) (a b : Nat) :
    contents f (a + b) = contents f a ++ contents (fun j => f (a + j)) b := by
  unfold contents
  rw [List.range_add, List.map_append, List.map_map]
  rfl

theorem contents_eq_list (f : Nat → Char) (s : List Char) (d : Char)
    (h : ∀ j, j < s.length → f j = s.getD j d) : contents f s.length = s := by
  apply List.ext_getElem
  · exact contents_length f s.length
  · intro j h1 h2
    simp only [contents, List.getElem_map, List.getElem_range]
    rw [h j h2, List.getD_eq_getElem _ _ h2]

theorem contents_eq_replicate (f : Nat → Char) (n : Nat) (c : Char)
    (h : ∀ j, j < n → f j = c) : contents f n = List.replicate n c := by
  apply List.ext_getElem
  · simp [contents]
  · intro j h1 h2
    simp only [contents, List.getElem_map, List.getElem_range, List.getElem_replicate]
    exact h j (by simpa [contents] using h1)

theorem appended_nil (buf : Nat → Char) (off : Nat) : appended buf off [] = buf := by
  funext j
  unfold appended
  rw [if_neg (by simp)]

theorem appended_appended (buf : Nat → Char) (off : Nat) (a b : List Char) :
    appended (appended buf off a) (off + a.length) b = appended buf off (a ++ b) := by
  funext j
  unfold appended
  rw [List.length_append]
  by_cases h1 : off + a.length ≤ j ∧ j < off + a.length + b.length
  · rw [if_pos h1, if_pos (by omega), List.getD_append_right _ _ _ _ (by omega)]
    congr 1
    omega
  · rw [if_neg h1]
    by_cases h2 : off ≤ j ∧ j < off + a.length
    · rw [if_pos h2, if_pos (by omega), List.getD_append _ _ _ _ (by omega)]
    · rw [if_neg h2, if_neg (by omega)]

theorem with_appended_nil (g : Globals) : with_appended g [] = g := by
  unfold with_appended
  rw [appended_nil]
  rfl

theorem with_appended_append (g : Globals) (a b : List Char) :
    with_appended (with_appended g a) b = with_appended g (a ++ b) := by
  unfold with_appended
  simp only [appended_appended, List.length_append, Nat.add_assoc]

theorem fwrite_strings_below : ∀ (lines : List (List Char)) (g : Globals),
    g.sd_buffer_length + lines.flatten.length < SD_WRITE_BUFFER_FLUSH_LIMIT →
    fwrite_strings g lines = some (with_appended g lines.flatten)
  | [], g, _ => by
    rw [List.flatten_nil, with_appended_nil]
    rfl
  | l :: rest, g, h => by
    rw [List.flatten_cons, List.length_append] at h
    unfold fwrite_strings
    rw [fwrite_string_below g l (by omega)]
    simp only [Option.bind]
    rw [fwrite_strings_below rest (with_appended g l) (by
      show g.sd_buffer_length + l.length + rest.flatten.length < SD_WRITE_BUFFER_FLUSH_LIMIT
      omega)]
    rw [with_appended_append, List.flatten_cons]

theorem fwrite_strings_snoc : ∀ (lines : List (List Char)) (last : List Char) (g : Globals),
    fwrite_strings g (lines ++ [last]) =
      (fwrite_strings g lines).bind fun g1 => fwrite_string g1 last
  | [], last, g => by
    simp only [List.nil_append, fwrite_strings, Option.bind]
    cases fwrite_string g last <;> rfl
  | l :: rest, last, g => by
    simp only [List.cons_append, fwrite_strings]
    cases h : fwrite_string g l with
    | none => rfl
    | some g1 =>
      simp only [Option.bind]
      exact fwrite_strings_snoc rest last g1

theorem handed_off_padded_contents (w : Globals) (pre : List Char)
    (hlen : w.sd_buffer_length = pre.length + 2)
    (hpre : ∀ j, j < pre.length → w.sd_buffer j = pre.getD j ' ') :
    contents (handed_off (with_padding w)).sd_buffer_for_write
        (handed_off (with_padding w)).sd_buffer_length_for_write =
      pre ++ [','] ++ List.replicate (padding w.sd_buffer_length - 1) ' ' ++ ['\r', '\n'] := by
  have hp := padding_pos w.sd_buffer_length
  have hP : ∀ j, j < w.sd_buffer_length + padding w.sd_buffer_length →
      (handed_off (with_padding w)).sd_buffer_for_write j
        = padded w.sd_buffer w.sd_buffer_length j := by
    intro j hj
    exact handed_off_pending_lt (with_padding w) j hj
  have hsplit : (handed_off (with_padding w)).sd_buffer_length_for_write
      = pre.length + 1 + (padding w.sd_buffer_length - 1) + 2 := by
    show w.sd_buffer_length + padding w.sd_buffer_length = _
    omega
  rw [hsplit, contents_add, contents_add, contents_add]
  have e1 : contents (handed_off (with_padding w)).sd_buffer_for_write pre.length = pre := by
    apply contents_eq_list _ _ ' '
    intro j hj
    rw [hP j (by omega), padded_below _ _ _ (by omega)]
    exact hpre j hj
  have e2 : contents (fun j => (handed_off (with_padding w)).sd_buffer_for_write
      (pre.length + j)) 1 = [','] := by
    show [(handed_off (with_padding w)).sd_buffer_for_write (pre.length + 0)] = [',']
    rw [hP _ (by omega)]
    have h := padded_comma w.sd_buffer w.sd_buffer_length (by omega)
    rw [hlen] at h ⊢
    exact congrArg (fun c => [c]) h
  have e3 : contents (fun j => (handed_off (with_padding w)).sd_buffer_for_write
      (pre.length + 1 + j)) (padding w.sd_buffer_length - 1)
      = List.replicate (padding w.sd_buffer_length - 1) ' ' := by
    apply contents_eq_replicate
    intro j hj
    show (handed_off (with_padding w)).sd_buffer_for_write (pre.length + 1 + j) = ' '
    rw [hP _ (by omega)]
    exact padded_space _ _ _ (by omega) (by omega)
  have e4 : contents (fun j => (handed_off (with_padding w)).sd_buffer_for_write
      (pre.length + 1 + (padding w.sd_buffer_length - 1) + j)) 2 = ['\r', '\n'] := by
    show [(handed_off (with_padding w)).sd_buffer_for_write
        (pre.length + 1 + (padding w.sd_buffer_length - 1) + 0),
      (handed_off (with_padding w)).sd_buffer_for_write
        (pre.length + 1 + (padding w.sd_buffer_length - 1) + 1)] = ['\r', '\n']
    rw [hP _ (by omega), hP _ (by omega)]
    have hcr := padded_cr w.sd_buffer w.sd_buffer_length (by omega)
    have hlf := padded_lf w.sd_buffer w.sd_buffer_length
    have i1 : pre.length + 1 + (padding w.sd_buffer_length - 1) + 0
        = w.sd_buffer_length + padding w.sd_buffer_length - 2 := by omega
    have i2 : pre.length + 1 + (padding w.sd_buffer_length - 1) + 1
        = w.sd_buffer_length + padding w.sd_buffer_length - 1 := by omega
    rw [i1, i2, hcr, hlf]
  rw [e1, e2, e3, e4]

/-- C9: order and content are preserved through a handoff. Strings are appended
by `fwrite_string` to an empty accumulating buffer with nothing pending; the last
one is a line `body` CR LF, and the flush limit is first reached by it. Then the
handoff is triggered, and the pending buffer holds, over its whole length, the
concatenation of the strings in append order with only the CR LF of the last
line replaced by a comma, spaces and CR LF: no other byte is added, dropped or
reordered. The pending length is a multiple of 512. -/
theorem handoff_preserves_order (g : Globals) (lines : List (List Char)) (body : List Char)
    (hempty : g.sd_buffer_length = 0) (hidle : g.bReqWrite = 0)
    (hbelow : lines.flatten.length < SD_WRITE_BUFFER_FLUSH_LIMIT)
    (hreach : SD_WRITE_BUFFER_FLUSH_LIMIT ≤ lines.flatten.length + (body.length + 2))
    (hroom : lines.flatten.length + (body.length + 2)
      + (MMCSD_BLOCK_SIZE - (lines.flatten.length + (body.length + 2)) % MMCSD_BLOCK_SIZE)
      ≤ SD_WRITE_BUFFER) :
    ∃ g1, fwrite_strings g (lines ++ [body ++ ['\r', '\n']]) = some g1 ∧
      g1.bReqWrite = 1 ∧ g1.bWriteFault = g.bWriteFault ∧ g1.sd_buffer_length = 0 ∧
      g1.sd_buffer_length_for_write % MMCSD_BLOCK_SIZE = 0 ∧
      contents g1.sd_buffer_for_write g1.sd_buffer_length_for_write =
        lines.flatten ++ body ++ [',']
          ++ List.replicate (MMCSD_BLOCK_SIZE
              - (lines.flatten.length + (body.length + 2)) % MMCSD_BLOCK_SIZE - 1) ' '
          ++ ['\r', '\n'] := by
  have hC : SD_WRITE_BUFFER = 50176 := rfl
  have hpadle := padding_le (lines.flatten.length + (body.length + 2))
  have hpadpos := padding_pos (lines.flatten.length + (body.length + 2))
  have hlast : (body ++ ['\r', '\n']).length = body.length + 2 := by simp
  -- the globals after all the strings have been copied
  have hwlen : (with_appended g (lines.flatten ++ (body ++ ['\r', '\n']))).sd_buffer_length
      = (lines.flatten ++ body).length + 2 := by
    show g.sd_buffer_length + (lines.flatten ++ (body ++ ['\r', '\n'])).length = _
    rw [hempty]
    simp only [List.length_append, List.length_cons, List.length_nil]
    omega
  have hwlen2 : (with_appended g (lines.flatten ++ (body ++ ['\r', '\n']))).sd_buffer_length
      = lines.flatten.length + (body.length + 2) := by
    rw [hwlen, List.length_append]
    omega
  have hwbuf : ∀ j, j < (lines.flatten ++ body).length + 2 →
      (with_appended g (lines.flatten ++ (body ++ ['\r', '\n']))).sd_buffer j
        = ((lines.flatten ++ body) ++ ['\r', '\n']).getD j ' ' := by
    intro j hj
    have hjl : j < (lines.flatten ++ (body ++ ['\r', '\n'])).length := by
      simp only [List.length_append, List.length_cons, List.length_nil] at hj ⊢
      omega
    show appended g.sd_buffer g.sd_buffer_length (lines.flatten ++ (body ++ ['\r', '\n'])) j = _
    unfold appended
    rw [hempty, if_pos ⟨Nat.zero_le j, by omega⟩, Nat.sub_zero, List.append_assoc,
      List.getD_eq_getElem _ _ hjl, List.getD_eq_getElem _ _ hjl]
  have hcrlf : ends_crlf (with_appended g (lines.flatten ++ (body ++ ['\r', '\n']))) := by
    refine ⟨by omega, ?_, ?_⟩
    · rw [hwbuf _ (by omega), hwlen, List.getD_append_right _ _ _ _ (by omega)]
      have : (lines.flatten ++ body).length + 2 - 2 - (lines.flatten ++ body).length = 0 := by
        omega
      rw [this]
      rfl
    · rw [hwbuf _ (by omega), hwlen, List.getD_append_right _ _ _ _ (by omega)]
      have : (lines.flatten ++ body).length + 2 - 1 - (lines.flatten ++ body).length = 1 := by
        omega
      rw [this]
      rfl
  have hmark : marked (with_appended g (lines.flatten ++ (body ++ ['\r', '\n'])))
      = with_appended g (lines.flatten ++ (body ++ ['\r', '\n'])) := by
    unfold marked
    rw [if_neg]
    show ¬ g.bReqWrite ≠ 0
    rw [hidle]
    decide
  have haligned : aligned (with_appended g (lines.flatten ++ (body ++ ['\r', '\n'])))
      = (with_padding (with_appended g (lines.flatten ++ (body ++ ['\r', '\n']))), 1) := by
    unfold aligned
    rw [if_pos hcrlf]
  -- the calls
  have hrun : fwrite_strings g (lines ++ [body ++ ['\r', '\n']])
      = some (handed_off
          (with_padding (with_appended g (lines.flatten ++ (body ++ ['\r', '\n']))))) := by
    rw [fwrite_strings_snoc, fwrite_strings_below lines g (by rw [hempty]; omega)]
    simp only [Option.bind]
    rw [fwrite_string_reach _ _
      (by show SD_WRITE_BUFFER_FLUSH_LIMIT
            ≤ g.sd_buffer_length + lines.flatten.length + (body ++ ['\r', '\n']).length
          rw [hempty, hlast]
          omega)
      (by show g.sd_buffer_length + lines.flatten.length + (body ++ ['\r', '\n']).length
            ≤ SD_WRITE_BUFFER
          rw [hempty, hlast]
          omega),
      with_appended_append,
      request_write_marked _ (by rw [hwlen2]; exact hroom), hmark, haligned]
  refine ⟨_, hrun, rfl, rfl, rfl, ?_, ?_⟩
  · show ((with_appended g (lines.flatten ++ (body ++ ['\r', '\n']))).sd_buffer_length
      + padding (with_appended g (lines.flatten ++ (body ++ ['\r', '\n']))).sd_buffer_length)
      % MMCSD_BLOCK_SIZE = 0
    exact padding_mod _
  · rw [handed_off_padded_contents _ (lines.flatten ++ body) hwlen
      (fun j hj => by
        rw [hwbuf j (by omega), List.getD_append _ _ _ _ hj]),
      hwlen2]
    rfl

theorem replicate_flatten_length (n : Nat) (c : Char) :
    [List.replicate n c].flatten.length = n := by
  rw [List.flatten_cons, List.flatten_nil, List.append_nil, List.length_replicate]

/-- C9, at one string of 49150 bytes followed by the line `ab` CR LF, which
reaches the flush limit. -/
theorem handoff_preserves_order_witness :
    ∃ g1, fwrite_strings ex_cfg_plain
        ([List.replicate 49150 'x'] ++ [['a', 'b'] ++ ['\r', '\n']]) = some g1 ∧
      g1.bReqWrite = 1 ∧ g1.bWriteFault = ex_cfg_plain.bWriteFault ∧
      g1.sd_buffer_length = 0 ∧
      g1.sd_buffer_length_for_write % MMCSD_BLOCK_SIZE = 0 ∧
      contents g1.sd_buffer_for_write g1.sd_buffer_length_for_write =
        [List.replicate 49150 'x'].flatten ++ ['a', 'b'] ++ [',']
          ++ List.replicate (MMCSD_BLOCK_SIZE
              - ([List.replicate 49150 'x'].flatten.length + (['a', 'b'].length + 2))
                % MMCSD_BLOCK_SIZE - 1) ' '
          ++ ['\r', '\n'] :=
  handoff_preserves_order ex_cfg_plain [List.replicate 49150 'x'] ['a', 'b'] rfl rfl
    (by rw [replicate_flatten_length]; decide)
    (by rw [replicate_flatten_length]; decide)
    (by rw [replicate_flatten_length]; decide)

/-! ## Length of a line -/

theorem fmt_radix_length (al : List Char) :
    ∀ (fuel n k : Nat), 1 ≤ k → n < al.length ^ k → (fmt_radix al fuel n).length ≤ k := by
  intro fuel
  induction fuel with
  | zero =>
    intro n k _ _
    simp [fmt_radix]
  | succ f ih =>
    intro n k hk hn
    unfold fmt_radix
    by_cases hlt : n < al.length
    · rw [if_pos hlt]
      simpa using hk
    · rw [if_neg hlt]
      have hk2 : 2 ≤ k := by
        by_contra hc
        have hk1 : k = 1 := by omega
        rw [hk1, pow_one] at hn
        exact hlt hn
      have hdiv : n / al.length < al.length ^ (k - 1) := by
        apply Nat.div_lt_of_lt_mul
        have : al.length * al.length ^ (k - 1) = al.length ^ k := by
          rw [← pow_succ']
          congr 1
          omega
        rw [this]
        exact hn
      have := ih (n / al.length) (k - 1) (by omega) hdiv
      rw [List.length_append, List.length_singleton]
      omega

theorem fmt_X_length (n : Nat) (h : n < 2 ^ 32) : (fmt_X n).length ≤ 8 :=
  fmt_radix_length upperHexDigits (n + 1) n 8 (by norm_num)
    (lt_of_lt_of_le h (by decide))

theorem int_of_systime_natAbs (t : Nat) : (int_of_systime t).natAbs < 10 ^ 10 := by
  have hlt : t % 2 ^ 32 < 2 ^ 32 := Nat.mod_lt t (by norm_num)
  unfold int_of_systime
  by_cases h : t % 2 ^ 32 < 2 ^ 31
  · rw [if_pos h]
    omega
  · rw [if_neg h]
    omega

theorem fmt_d_length (i : Int) (h : i.natAbs < 10 ^ 10) : (fmt_d i).length ≤ 11 := by
  have hl := fmt_radix_length decimalDigits (i.natAbs + 1) i.natAbs 10
    (by norm_num) h
  unfold fmt_d
  by_cases hneg : i < 0
  · rw [if_pos hneg, List.length_cons]
    omega
  · rw [if_neg hneg]
    omega

theorem data_columns_length (rxmsg : CANRxFrame) (n : Nat) :
    (data_columns rxmsg n).flatten.length = 3 * n := by
  induction n with
  | zero => simp [data_columns]
  | succ n ih =>
    have hstep : data_columns rxmsg (n + 1)
        = data_columns rxmsg n ++ [',' :: fmt_02X (rxmsg.data8 n % 256)] := by
      unfold data_columns
      rw [List.range_succ, List.map_append]
      rfl
    rw [hstep, List.flatten_append, List.length_append, ih,
      fmt_02X_byte _ (Nat.mod_lt _ (by norm_num))]
    simp only [List.flatten_cons, List.flatten_nil, List.append_nil, List.length_cons,
      List.length_nil]
    omega

theorem tick_column_length (g : Globals) (now : Nat) : (tick_column g now).length ≤ 12 := by
  unfold tick_column
  by_cases h : g.bIncludeTimestamp ≠ 0
  · rw [if_pos h, List.length_append, List.length_singleton]
    have := fmt_d_length _ (int_of_systime_natAbs now)
    omega
  · rw [if_neg h]
    simp

/-- C16: for every frame with `dlc` in 0..8, every 29-bit identifier, every
tick value and either timestamp setting, `can1_rx` formats a line which, its
CR LF included, is at most 64 bytes long (at most 46, indeed), and 64 is less
than CAP - T = 1024. -/
theorem can1_rx_line_length (g : Globals) (now : Nat) (rxmsg : CANRxFrame)
    (hdlc : rxmsg.dlc ≤ 8) :
    (∃ line, can1_rx_line g now rxmsg = some line ∧ line.length ≤ 46 ∧ line.length ≤ 64) ∧
    64 < SD_WRITE_BUFFER - SD_WRITE_BUFFER_FLUSH_LIMIT ∧
    SD_WRITE_BUFFER - SD_WRITE_BUFFER_FLUSH_LIMIT = 1024 := by
  refine ⟨⟨_, can1_rx_line_eq g now rxmsg hdlc, ?_, ?_⟩, by decide, by decide⟩
  all_goals
    have h1 := tick_column_length g now
    have h2 := fmt_X_length rxmsg.EID
      (lt_of_lt_of_le (Nat.mod_lt _ (by norm_num)) (by norm_num))
    have h3 := data_columns_length rxmsg rxmsg.dlc
    simp only [List.length_append, List.length_cons, List.length_nil, h3]
    omega

/-- C16, at the standard frame id=0x123, dlc=2 with the timestamp on. -/
theorem can1_rx_line_length_witness :
    (∃ line, can1_rx_line ex_cfg_timestamp 4000000000 ex_std_frame = some line ∧
      line.length ≤ 46 ∧ line.length ≤ 64) ∧
    64 < SD_WRITE_BUFFER - SD_WRITE_BUFFER_FLUSH_LIMIT ∧
    SD_WRITE_BUFFER - SD_WRITE_BUFFER_FLUSH_LIMIT = 1024 :=
  can1_rx_line_length ex_cfg_timestamp 4000000000 ex_std_frame (by decide)

/-- C19: the code at a tick value from 2^31 on. With the timestamp on and the
system time 4000000000, the first column of the line is `-294967296`, the tick
converted to `int`, not its decimal representation `4000000000`; at the system
time 2147483647 the first column is `2147483647`. -/
theorem can1_rx_line_negative_tick :
    ex_cfg_timestamp.bIncludeTimestamp ≠ 0 ∧
    can1_rx_line ex_cfg_timestamp 4000000000 ex_std_frame
      = some "-294967296,123,AB,CD\r\n".toList ∧
    can1_rx_line ex_cfg_timestamp 4000000000 ex_std_frame
      ≠ some "4000000000,123,AB,CD\r\n".toList ∧
    can1_rx_line ex_cfg_timestamp 2147483647 ex_std_frame
      = some "2147483647,123,AB,CD\r\n".toList := by
  decide

/-! ## Reading a line back -/

theorem takeWhile_dropWhile_stop (p : Char → Bool) : ∀ (a : List Char) (c : Char)
    (b : List Char), (∀ x ∈ a, p x = true) → p c = false →
    (a ++ c :: b).takeWhile p = a ∧ (a ++ c :: b).dropWhile p = c :: b := by
  intro a
  induction a with
  | nil =>
    intro c b _ hc
    simp [List.takeWhile, List.dropWhile, hc]
  | cons x xs ih =>
    intro c b ha hc
    have hx : p x = true := ha x (List.mem_cons_self x xs)
    have hrec := ih c b (fun y hy => ha y (List.mem_cons_of_mem x hy)) hc
    simp [List.takeWhile, List.dropWhile, hx, hrec.1, hrec.2]

theorem fmt_radix_mem (al : List Char) (hal : 0 < al.length) :
    ∀ (fuel n : Nat) (c : Char), c ∈ fmt_radix al fuel n → c ∈ al := by
  intro fuel
  induction fuel with
  | zero =>
    intro n c hc
    simp [fmt_radix] at hc
  | succ f ih =>
    intro n c hc
    unfold fmt_radix at hc
    by_cases hlt : n < al.length
    · rw [if_pos hlt, List.mem_singleton] at hc
      rw [hc, List.getD_eq_getElem _ _ hlt]
      exact List.getElem_mem hlt
    · rw [if_neg hlt, List.mem_append, List.mem_singleton] at hc
      rcases hc with hc | hc
      · exact ih _ c hc
      · have hm : n % al.length < al.length := Nat.mod_lt n hal
        rw [hc, List.getD_eq_getElem _ _ hm]
        exact List.getElem_mem hm

theorem fmt_d_no_comma (i : Int) : ∀ c ∈ fmt_d i, decide (c ≠ ',') = true := by
  have hdec : ∀ c ∈ decimalDigits, c ≠ ',' := by decide
  intro c hc
  unfold fmt_d at hc
  have hmem : c = '-' ∨ c ∈ decimalDigits := by
    by_cases hneg : i < 0
    · rw [if_pos hneg, List.mem_cons] at hc
      rcases hc with hc | hc
      · exact Or.inl hc
      · exact Or.inr (fmt_radix_mem decimalDigits (by decide) _ _ c hc)
    · rw [if_neg hneg] at hc
      exact Or.inr (fmt_radix_mem decimalDigits (by decide) _ _ c hc)
  rcases hmem with h | h
  · rw [h]
    decide
  · simpa using hdec c h

theorem fmt_X_in_column (n : Nat) : ∀ c ∈ fmt_X n, in_column c = true := by
  have hhex : ∀ c ∈ upperHexDigits, in_column c = true := by decide
  intro c hc
  exact hhex c ((fmt_X_spec n).1.2.1 c hc)

theorem parse_data_columns : ∀ (bs : List Nat), (∀ b ∈ bs, b < 256) →
    parse_data ((bs.map fun b => ',' :: fmt_02X b).flatten ++ ['\r', '\n']) = bs
  | [], _ => rfl
  | b :: rest, h => by
    have hb : b < 256 := h b (List.mem_cons_self b rest)
    obtain ⟨hi, lo, hfmt, hval⟩ := fmt_02X_spec b hb
    have hrec := parse_data_columns rest (fun x hx => h x (List.mem_cons_of_mem b hx))
    simp only [List.map_cons, List.flatten_cons, hfmt, List.cons_append, List.nil_append,
      parse_data, if_true, hrec, hval.2.2]

theorem data_columns_payload (rxmsg : CANRxFrame) :
    data_columns rxmsg rxmsg.dlc = (payload rxmsg).map fun b => ',' :: fmt_02X b := by
  unfold data_columns payload
  rw [List.map_map]
  rfl

theorem payload_lt (rxmsg : CANRxFrame) : ∀ b ∈ payload rxmsg, b < 256 := by
  intro b hb
  unfold payload at hb
  rw [List.mem_map] at hb
  obtain ⟨i, _, hi⟩ := hb
  rw [← hi]
  exact Nat.mod_lt _ (by norm_num)

theorem columns_head (bs : List Nat) :
    ∃ c rest, (bs.map fun b => ',' :: fmt_02X b).flatten ++ ['\r', '\n'] = c :: rest ∧
      in_column c = false := by
  cases bs with
  | nil => exact ⟨'\r', ['\n'], rfl, by decide⟩
  | cons b rest => exact ⟨',', _, rfl, by decide⟩

theorem parse_record_line (g : Globals) (now : Nat) (rxmsg : CANRxFrame) :
    parse_record (decide (g.bIncludeTimestamp ≠ 0))
      (tick_column g now ++ fmt_X rxmsg.EID ++ (data_columns rxmsg rxmsg.dlc).flatten
        ++ ['\r', '\n']) = (rxmsg.EID, payload rxmsg) := by
  obtain ⟨c, rest, hcols, hc⟩ := columns_head (payload rxmsg)
  have hbody : parse_record false
      (fmt_X rxmsg.EID ++ ((data_columns rxmsg rxmsg.dlc).flatten ++ ['\r', '\n']))
      = (rxmsg.EID, payload rxmsg) := by
    have hsplit := takeWhile_dropWhile_stop in_column (fmt_X rxmsg.EID) c rest
      (fmt_X_in_column rxmsg.EID) hc
    unfold parse_record
    simp only [Bool.false_eq_true, if_false]
    rw [data_columns_payload, hcols, hsplit.1, hsplit.2, ← hcols,
      parse_data_columns _ (payload_lt rxmsg), (fmt_X_spec rxmsg.EID).1.2.2]
  by_cases hts : g.bIncludeTimestamp ≠ 0
  · have hdrop := takeWhile_dropWhile_stop (fun c => c ≠ ',') (fmt_d (int_of_systime now)) ','
      (fmt_X rxmsg.EID ++ ((data_columns rxmsg rxmsg.dlc).flatten ++ ['\r', '\n']))
      (fmt_d_no_comma _) (by decide)
    have hline : tick_column g now ++ fmt_X rxmsg.EID
        ++ (data_columns rxmsg rxmsg.dlc).flatten ++ ['\r', '\n']
        = fmt_d (int_of_systime now) ++ ',' :: (fmt_X rxmsg.EID
          ++ ((data_columns rxmsg rxmsg.dlc).flatten ++ ['\r', '\n'])) := by
      unfold tick_column
      rw [if_pos hts]
      simp
    have hd : decide (g.bIncludeTimestamp ≠ 0) = true := by simpa using hts
    rw [hline, hd, ← hbody]
    unfold parse_record
    rw [if_pos rfl, if_neg (by decide), hdrop.2, List.drop_one, List.tail_cons]
  · have hline : tick_column g now ++ fmt_X rxmsg.EID
        ++ (data_columns rxmsg rxmsg.dlc).flatten ++ ['\r', '\n']
        = fmt_X rxmsg.EID ++ ((data_columns rxmsg rxmsg.dlc).flatten ++ ['\r', '\n']) := by
      unfold tick_column
      rw [if_neg hts]
      simp
    rw [hline]
    have hd : decide (g.bIncludeTimestamp ≠ 0) = false := by simpa using hts
    rw [hd]
    exact hbody

/-- Reading back the line of a frame whose identifier word holds the identifier
of the frame and nothing else, with `dlc` in 0..8: `parse_record` returns the
identifier of the frame and its payload; two such frames whose lines are equal,
at whatever ticks, have the same identifier, the same `dlc` and the same
payload. -/
theorem parse_record_identifier (g : Globals) (now : Nat) (rxmsg : CANRxFrame)
    (hdlc : rxmsg.dlc ≤ 8) (hid : rxmsg.IDE = true ∨ rxmsg.EID < 2 ^ 11) :
    (∃ line, can1_rx_line g now rxmsg = some line ∧
      parse_record (decide (g.bIncludeTimestamp ≠ 0)) line
        = (rxmsg.identifier, payload rxmsg)) ∧
    (∀ (now2 : Nat) (m2 : CANRxFrame), m2.dlc ≤ 8 → (m2.IDE = true ∨ m2.EID < 2 ^ 11) →
      can1_rx_line g now2 m2 = can1_rx_line g now rxmsg →
      m2.identifier = rxmsg.identifier ∧ m2.dlc = rxmsg.dlc ∧
        payload m2 = payload rxmsg) := by
  constructor
  · refine ⟨_, can1_rx_line_eq g now rxmsg hdlc, ?_⟩
    rw [identifier_eq_eid rxmsg hid]
    exact parse_record_line g now rxmsg
  · intro now2 m2 h2 hid2 heq
    rw [can1_rx_line_eq g now rxmsg hdlc, can1_rx_line_eq g now2 m2 h2] at heq
    have hlines := Option.some.inj heq
    have hp := parse_record_line g now2 m2
    rw [hlines, parse_record_line g now rxmsg] at hp
    have he : m2.EID = rxmsg.EID := (congrArg Prod.fst hp).symm
    have hpay : payload m2 = payload rxmsg := (congrArg Prod.snd hp).symm
    refine ⟨?_, ?_, hpay⟩
    · rw [identifier_eq_eid rxmsg hid, identifier_eq_eid m2 hid2, he]
    · have hl := congrArg List.length hpay
      simpa [payload] using hl

/-- C11: the code at two frames with different identifiers. The standard frame
with identifier 0x123, in a record whose identifier word still holds upper bits
(0x18FE0123), and the extended frame with identifier 0x18FE0123 have the same
payload and, with the timestamp off as with it on, the same formatted line,
`18FE0123,AB,CD` CR LF; the reader `parse_record` returns 0x18FE0123 for both,
and no reader of lines returns the identifier of each of the two frames: the
formatted line does not determine the identifier. The defect is the one of C8:
the formatter prints `rxmsg.EID` whatever the kind of the frame. -/
theorem can1_rx_line_two_identifiers :
    ex_std_frame_stale.identifier = 0x123 ∧ ex_ext_twin.identifier = 0x18FE0123 ∧
    ex_std_frame_stale.dlc ≤ 8 ∧ ex_ext_twin.dlc ≤ 8 ∧
    can1_rx_accept ex_cfg_plain ex_std_frame_stale = true ∧
    can1_rx_accept ex_cfg_plain ex_ext_twin = true ∧
    can1_rx_line ex_cfg_plain 7 ex_std_frame_stale = some "18FE0123,AB,CD\r\n".toList ∧
    can1_rx_line ex_cfg_plain 7 ex_ext_twin = some "18FE0123,AB,CD\r\n".toList ∧
    can1_rx_line ex_cfg_timestamp 7 ex_std_frame_stale
      = can1_rx_line ex_cfg_timestamp 7 ex_ext_twin ∧
    parse_record false "18FE0123,AB,CD\r\n".toList = (0x18FE0123, [0xAB, 0xCD]) ∧
    ¬ ∃ reader : List Char → Nat × List Nat,
      ∀ m ∈ [ex_std_frame_stale, ex_ext_twin], ∀ line,
        can1_rx_line ex_cfg_plain 7 m = some line → (reader line).1 = m.identifier := by
  refine ⟨by decide, by decide, by decide, by decide, by decide, by decide, by decide,
    by decide, by decide, by decide, ?_⟩
  rintro ⟨reader, h⟩
  have h1 := h ex_std_frame_stale (by simp) "18FE0123,AB,CD\r\n".toList (by decide)
  have h2 := h ex_ext_twin (by simp) "18FE0123,AB,CD\r\n".toList (by decide)
  rw [h1] at h2
  exact absurd h2 (by decide)

/-! ## Unaligned handoff, session start and writer loop -/

/-- C18: on an accumulating buffer (of a length within its capacity) that is
shorter than 2 bytes or whose last two bytes are not CR LF, `align_buffer`
returns 0 and changes neither the length nor any byte, nor any other variable;
a following handoff, `copy_buffer` alone or within `request_write`, transfers
the unaligned length as it is, with the bytes of the buffer. -/
theorem align_buffer_skips_incomplete_line (g : Globals)
    (hcap : g.sd_buffer_length ≤ SD_WRITE_BUFFER)
    (hline : g.sd_buffer_length < 2 ∨ g.sd_buffer (g.sd_buffer_length - 2) ≠ '\r' ∨
      g.sd_buffer (g.sd_buffer_length - 1) ≠ '\n') :
    align_buffer g = some (g, 0) ∧
    (∃ g1, copy_buffer g = some g1 ∧
      g1.sd_buffer_length_for_write = g.sd_buffer_length ∧
      (∀ i, i < g.sd_buffer_length → g1.sd_buffer_for_write i = g.sd_buffer i) ∧
      g1.sd_buffer_length = 0) ∧
    (∃ g2, request_write g = some g2 ∧
      g2.sd_buffer_length_for_write = g.sd_buffer_length ∧
      (∀ i, i < g.sd_buffer_length → g2.sd_buffer_for_write i = g.sd_buffer i) ∧
      g2.sd_buffer_length = 0 ∧ g2.bReqWrite = 1) := by
  have hno : ¬ ends_crlf g := by
    intro h
    rcases hline with h1 | h1 | h1
    · exact absurd h.1 (by omega)
    · exact h1 h.2.1
    · exact h1 h.2.2
  have hm := marked_frame g
  have hnom : ¬ ends_crlf (marked g) := by
    intro h
    apply hno
    unfold ends_crlf at h ⊢
    rw [hm.1, hm.2.1] at h
    exact h
  have hal : align_buffer (marked g) = some (marked g, 0) :=
    align_buffer_skipped (marked g) (by rw [hm.2.1]; exact hcap) hnom
  refine ⟨align_buffer_skipped g hcap hno, ?_, ?_⟩
  · have hc : copy_buffer g = some { g with
        sd_buffer_for_write := fun j =>
          if j < g.sd_buffer_length then g.sd_buffer j else g.sd_buffer_for_write j,
        sd_buffer_length_for_write := g.sd_buffer_length,
        sd_buffer_length := 0 } := by
      unfold copy_buffer memcpy_buffer
      rw [if_pos hcap]
      rfl
    refine ⟨_, hc, rfl, ?_, rfl⟩
    intro i hi
    exact if_pos hi
  · have hrw : request_write g = some (handed_off (marked g)) := by
      have h := copy_buffer_eq (marked g) (by rw [hm.2.1]; exact hcap)
      unfold request_write
      show (align_buffer (marked g)).bind _ = _
      rw [hal]
      exact h
    refine ⟨_, hrw, hm.2.1, ?_, rfl, rfl⟩
    intro i hi
    rw [handed_off_pending_lt (marked g) i (by rw [hm.2.1]; exact hi), hm.1]

/-- C18, at the buffer holding `ab` with `zz` pending. -/
theorem align_buffer_skips_incomplete_line_witness :
    align_buffer ex_pending = some (ex_pending, 0) ∧
    (∃ g1, copy_buffer ex_pending = some g1 ∧
      g1.sd_buffer_length_for_write = ex_pending.sd_buffer_length ∧
      (∀ i, i < ex_pending.sd_buffer_length →
        g1.sd_buffer_for_write i = ex_pending.sd_buffer i) ∧
      g1.sd_buffer_length = 0) ∧
    (∃ g2, request_write ex_pending = some g2 ∧
      g2.sd_buffer_length_for_write = ex_pending.sd_buffer_length ∧
      (∀ i, i < ex_pending.sd_buffer_length →
        g2.sd_buffer_for_write i = ex_pending.sd_buffer i) ∧
      g2.sd_buffer_length = 0 ∧ g2.bReqWrite = 1) :=
  align_buffer_skips_incomplete_line ex_pending (by decide) (by decide)

theorem padded_contents (buf : Nat → Char) (L : Nat) (pre : List Char)
    (hlen : L = pre.length + 2)
    (hpre : ∀ j, j < pre.length → buf j = pre.getD j ' ') :
    contents (padded buf L) (L + padding L) =
      pre ++ [','] ++ List.replicate (padding L - 1) ' ' ++ ['\r', '\n'] := by
  have hp := padding_pos L
  have hsplit : L + padding L = pre.length + 1 + (padding L - 1) + 2 := by omega
  rw [hsplit, contents_add, contents_add, contents_add]
  have e1 : contents (padded buf L) pre.length = pre := by
    apply contents_eq_list _ _ ' '
    intro j hj
    rw [padded_below _ _ _ (by omega)]
    exact hpre j hj
  have e2 : contents (fun j => padded buf L (pre.length + j)) 1 = [','] := by
    show [padded buf L (pre.length + 0)] = [',']
    have h := padded_comma buf L (by omega)
    have i0 : pre.length + 0 = L - 2 := by omega
    rw [i0, h]
  have e3 : contents (fun j => padded buf L (pre.length + 1 + j)) (padding L - 1)
      = List.replicate (padding L - 1) ' ' := by
    apply contents_eq_replicate
    intro j hj
    exact padded_space _ _ _ (by omega) (by omega)
  have e4 : contents (fun j => padded buf L (pre.length + 1 + (padding L - 1) + j)) 2
      = ['\r', '\n'] := by
    show [padded buf L (pre.length + 1 + (padding L - 1) + 0),
      padded buf L (pre.length + 1 + (padding L - 1) + 1)] = ['\r', '\n']
    have i1 : pre.length + 1 + (padding L - 1) + 0 = L + padding L - 2 := by omega
    have i2 : pre.length + 1 + (padding L - 1) + 1 = L + padding L - 1 := by omega
    rw [i1, i2, padded_cr buf L (by omega), padded_lf buf L]
  rw [e1, e2, e3, e4]

theorem start_log_eq (s : Logger) (now : Nat) (body : List Char)
    (hempty : s.vars.sd_buffer_length = 0)
    (hline : (if s.vars.bIncludeTimestamp ≠ 0 then header_timestamp else header_plain)
      = body ++ ['\r', '\n'])
    (hshort : body.length + 2 < 512) :
    ∃ s1, start_log s now = some s1 ∧
      s1.submitted = [body ++ [','] ++ List.replicate (512 - (body.length + 2) - 1) ' '
        ++ ['\r', '\n']] ∧
      s1.vars.sd_buffer_length = 0 ∧ s1.vars.sd_buffer_length_for_write = 0 ∧
      s1.vars.bWriteFault = 0 ∧ s1.vars.bLogging = 1 := by
  have hC : SD_WRITE_BUFFER = 50176 := rfl
  have hT : SD_WRITE_BUFFER_FLUSH_LIMIT = 49152 := rfl
  have hll : (body ++ ['\r', '\n']).length = body.length + 2 := by simp
  have hwlen : (with_appended s.vars (body ++ ['\r', '\n'])).sd_buffer_length
      = body.length + 2 := by
    show s.vars.sd_buffer_length + (body ++ ['\r', '\n']).length = _
    rw [hempty, hll]
    omega
  have hpad : padding (body.length + 2) = 512 - (body.length + 2) := by
    unfold padding MMCSD_BLOCK_SIZE
    rw [Nat.mod_eq_of_lt hshort]
  have hwbuf : ∀ j, j < body.length + 2 →
      (with_appended s.vars (body ++ ['\r', '\n'])).sd_buffer j
        = (body ++ ['\r', '\n']).getD j ' ' := by
    intro j hj
    show appended s.vars.sd_buffer s.vars.sd_buffer_length (body ++ ['\r', '\n']) j = _
    unfold appended
    rw [hempty, if_pos ⟨Nat.zero_le j, by omega⟩, Nat.sub_zero,
      List.getD_eq_getElem _ _ (by omega), List.getD_eq_getElem _ _ (by omega)]
  have hcr : (with_appended s.vars (body ++ ['\r', '\n'])).sd_buffer
      ((with_appended s.vars (body ++ ['\r', '\n'])).sd_buffer_length - 2) = '\r' := by
    rw [hwlen, hwbuf _ (by omega), List.getD_append_right _ _ _ _ (by omega)]
    have : body.length + 2 - 2 - body.length = 0 := by omega
    rw [this]
    rfl
  have hlf : (with_appended s.vars (body ++ ['\r', '\n'])).sd_buffer
      ((with_appended s.vars (body ++ ['\r', '\n'])).sd_buffer_length - 1) = '\n' := by
    rw [hwlen, hwbuf _ (by omega), List.getD_append_right _ _ _ _ (by omega)]
    have : body.length + 2 - 1 - body.length = 1 := by omega
    rw [this]
    rfl
  have hroom : (with_appended s.vars (body ++ ['\r', '\n'])).sd_buffer_length
      + padding (with_appended s.vars (body ++ ['\r', '\n'])).sd_buffer_length
      ≤ SD_WRITE_BUFFER := by
    rw [hwlen, hpad]
    omega
  have hw := fwrite_string_below s.vars (body ++ ['\r', '\n']) (by rw [hempty, hll]; omega)
  have ha := align_buffer_padded (with_appended s.vars (body ++ ['\r', '\n']))
    (by rw [hwlen]; omega) hcr hlf hroom
  have hbytes := padded_contents (with_appended s.vars (body ++ ['\r', '\n'])).sd_buffer
    (with_appended s.vars (body ++ ['\r', '\n'])).sd_buffer_length body hwlen
    (fun j hj => by rw [hwbuf j (by omega), List.getD_append _ _ _ _ hj])
  rw [hwlen, hpad] at hbytes
  have hrun : start_log s now = some
      { vars := { with_padding (with_appended s.vars (body ++ ['\r', '\n'])) with
                  sd_buffer_length_for_write := 0, sd_buffer_length := 0, bWriteFault := 0,
                  bLogging := 1 },
        submitted := [contents
          (with_padding (with_appended s.vars (body ++ ['\r', '\n']))).sd_buffer
          (with_padding (with_appended s.vars (body ++ ['\r', '\n']))).sd_buffer_length],
        stLastWriting := now % 2 ^ 32 } := by
    unfold start_log
    simp only [hline]
    rw [hw]
    simp only [Option.bind]
    rw [ha]
    have hroom2 : (with_padding (with_appended s.vars (body ++ ['\r', '\n']))).sd_buffer_length
        ≤ SD_WRITE_BUFFER := hroom
    simp only [Option.bind, fwrite_]
    rw [if_pos hroom2]
  refine ⟨_, hrun, ?_, rfl, rfl, rfl, rfl⟩
  show [contents (padded _ _) (_ + padding _)] = _
  rw [hwlen, hpad, hbytes]

/-- C13: session start writes exactly one 512-byte block. From an empty
accumulating buffer and with the timestamp option on, `start_log` submits to the
file one block of exactly 512 bytes: the header
`Timestamp,ID,Data0,Data1,Data2,Data3,Data4,Data5,Data6,Data7`, then the padding
of `align_buffer`, a comma and 449 spaces, before the final CR LF. Afterwards
both buffer lengths are 0, the fault flag is 0 and logging is armed. With the
timestamp option off the same holds for the header without `Timestamp,` and 459
spaces. -/
theorem start_log_writes_one_block (s : Logger) (now : Nat)
    (hempty : s.vars.sd_buffer_length = 0) :
    ∃ s1, start_log s now = some s1 ∧
      s1.submitted =
        [(if s.vars.bIncludeTimestamp ≠ 0
            then "Timestamp,ID,Data0,Data1,Data2,Data3,Data4,Data5,Data6,Data7".toList
            else "ID,Data0,Data1,Data2,Data3,Data4,Data5,Data6,Data7".toList)
          ++ [','] ++ List.replicate (if s.vars.bIncludeTimestamp ≠ 0 then 449 else 459) ' '
          ++ ['\r', '\n']] ∧
      (∀ block ∈ s1.submitted, block.length = 512) ∧
      s1.vars.sd_buffer_length = 0 ∧ s1.vars.sd_buffer_length_for_write = 0 ∧
      s1.vars.bWriteFault = 0 ∧ s1.vars.bLogging = 1 := by
  by_cases hts : s.vars.bIncludeTimestamp ≠ 0
  · obtain ⟨s1, hrun, hsub, h1, h2, h3, h4⟩ := start_log_eq s now
      "Timestamp,ID,Data0,Data1,Data2,Data3,Data4,Data5,Data6,Data7".toList hempty
      (by rw [if_pos hts]; decide) (by decide)
    refine ⟨s1, hrun, ?_, ?_, h1, h2, h3, h4⟩
    · rw [hsub, if_pos hts, if_pos hts]
      rfl
    · intro block hb
      rw [hsub, List.mem_singleton] at hb
      rw [hb]
      simp only [List.length_append, List.length_replicate, List.length_cons, List.length_nil]
      decide
  · obtain ⟨s1, hrun, hsub, h1, h2, h3, h4⟩ := start_log_eq s now
      "ID,Data0,Data1,Data2,Data3,Data4,Data5,Data6,Data7".toList hempty
      (by rw [if_neg hts]; decide) (by decide)
    refine ⟨s1, hrun, ?_, ?_, h1, h2, h3, h4⟩
    · rw [hsub, if_neg hts, if_neg hts]
      rfl
    · intro block hb
      rw [hsub, List.mem_singleton] at hb
      rw [hb]
      simp only [List.length_append, List.length_replicate, List.length_cons, List.length_nil]
      decide

/-- C13, at a logger whose buffers are empty and whose timestamp option is on. -/
theorem start_log_writes_one_block_witness :
    ∃ s1, start_log ex_logger_boot 99 = some s1 ∧
      s1.submitted =
        [(if ex_logger_boot.vars.bIncludeTimestamp ≠ 0
            then "Timestamp,ID,Data0,Data1,Data2,Data3,Data4,Data5,Data6,Data7".toList
            else "ID,Data0,Data1,Data2,Data3,Data4,Data5,Data6,Data7".toList)
          ++ [',']
          ++ List.replicate (if ex_logger_boot.vars.bIncludeTimestamp ≠ 0 then 449 else 459) ' '
          ++ ['\r', '\n']] ∧
      (∀ block ∈ s1.submitted, block.length = 512) ∧
      s1.vars.sd_buffer_length = 0 ∧ s1.vars.sd_buffer_length_for_write = 0 ∧
      s1.vars.bWriteFault = 0 ∧ s1.vars.bLogging = 1 :=
  start_log_writes_one_block ex_logger_boot 99 (by decide)

theorem main_write_pending_eq (s : Logger) (written : Nat) (sync_ok : Bool) (now : Nat)
    (hreq : s.vars.bReqWrite ≠ 0)
    (hcap : s.vars.sd_buffer_length_for_write ≤ SD_WRITE_BUFFER) :
    main_write_pending s written sync_ok now = some (written_out s written sync_ok now) := by
  unfold main_write_pending fwrite_ written_out fault_after_write
  rw [if_pos hreq, if_pos hcap]
  simp only [Option.bind]
  cases sync_ok
  · by_cases hw : written ≠ s.vars.sd_buffer_length_for_write
    · simp [hw]
    · simp [hw]
  · by_cases hw : written ≠ s.vars.sd_buffer_length_for_write
    · simp [hw]
    · simp [hw]

/-- C17: in an iteration of the writer loop in which a handoff is pending when
the test `if (bReqWrite)` is made (the pending length being within the
capacity), exactly the first `sd_buffer_length_for_write` bytes of the pending
buffer are submitted to the file, the pending flag is cleared afterwards, and
the fault flag becomes 2 (WRITE_FAULT) if the count written differs from the
count requested or the sync fails, and is unchanged otherwise; in both cases the
iteration ends normally, with the buffers and lengths as they were. When the
idle flush of the same iteration does not fire, the iteration is this block. -/
theorem main_loop_writes_pending (s : Logger) (freq now written : Nat) (sync_ok : Bool)
    (now_done : Nat) (hreq : s.vars.bReqWrite ≠ 0)
    (hcap : s.vars.sd_buffer_length_for_write ≤ SD_WRITE_BUFFER) :
    (∃ s1, main_write_pending s written sync_ok now_done = some s1 ∧
      s1.submitted = s.submitted
        ++ [contents s.vars.sd_buffer_for_write s.vars.sd_buffer_length_for_write] ∧
      s1.vars.bReqWrite = 0 ∧
      (written ≠ s.vars.sd_buffer_length_for_write ∨ sync_ok = false →
        s1.vars.bWriteFault = 2) ∧
      (written = s.vars.sd_buffer_length_for_write ∧ sync_ok = true →
        s1.vars.bWriteFault = s.vars.bWriteFault) ∧
      s1.stLastWriting = now_done % 2 ^ 32 ∧
      s1.vars = { s.vars with bReqWrite := 0, bWriteFault := s1.vars.bWriteFault }) ∧
    (¬ ((now % 2 ^ 32 + 2 ^ 32 - s.stLastWriting % 2 ^ 32) % 2 ^ 32 > 2 * freq ∧
        s.vars.sd_buffer_length > 0) →
      main_loop_iteration s freq now written sync_ok now_done
        = main_write_pending s written sync_ok now_done) := by
  constructor
  · refine ⟨_, main_write_pending_eq s written sync_ok now_done hreq hcap, rfl, rfl, ?_, ?_,
      rfl, rfl⟩
    · intro hfail
      show fault_after_write s.vars written sync_ok = 2
      unfold fault_after_write
      by_cases hs : sync_ok = false
      · rw [if_pos hs]
      · rw [if_neg hs]
        rcases hfail with h | h
        · rw [if_pos h]
        · exact absurd h hs
    · intro hok
      show fault_after_write s.vars written sync_ok = s.vars.bWriteFault
      unfold fault_after_write
      rw [if_neg (by rw [hok.2]; decide), if_neg (fun h => h hok.1)]
  · intro hidle
    unfold main_loop_iteration main_idle_flush
    by_cases he : (now % 2 ^ 32 + 2 ^ 32 - s.stLastWriting % 2 ^ 32) % 2 ^ 32 > 2 * freq
    · rw [if_pos he]
      have hl : ¬ s.vars.sd_buffer_length > 0 := fun h => hidle ⟨he, h⟩
      rw [if_neg hl]
      rfl
    · rw [if_neg he]
      rfl

/-- C17, at the logger with `zz` pending, a short write and a failed sync. -/
theorem main_loop_writes_pending_witness :
    (∃ s1, main_write_pending ex_logger_pending 1 false 50 = some s1 ∧
      s1.submitted = ex_logger_pending.submitted
        ++ [contents ex_logger_pending.vars.sd_buffer_for_write
            ex_logger_pending.vars.sd_buffer_length_for_write] ∧
      s1.vars.bReqWrite = 0 ∧
      (1 ≠ ex_logger_pending.vars.sd_buffer_length_for_write ∨ false = false →
        s1.vars.bWriteFault = 2) ∧
      (1 = ex_logger_pending.vars.sd_buffer_length_for_write ∧ false = true →
        s1.vars.bWriteFault = ex_logger_pending.vars.bWriteFault) ∧
      s1.stLastWriting = 50 % 2 ^ 32 ∧
      s1.vars = { ex_logger_pending.vars with
                  bReqWrite := 0, bWriteFault := s1.vars.bWriteFault }) ∧
    (¬ ((40 % 2 ^ 32 + 2 ^ 32 - ex_logger_pending.stLastWriting % 2 ^ 32) % 2 ^ 32 > 2 * 1000 ∧
        ex_logger_pending.vars.sd_buffer_length > 0) →
      main_loop_iteration ex_logger_pending 1000 40 1 false 50
        = main_write_pending ex_logger_pending 1 false 50) :=
  main_loop_writes_pending ex_logger_pending 1000 40 1 false 50 (by decide) (by decide)

/-! ## The fault flag -/

theorem foldl_config_keeps {α : Type} (π : ConfigState → α) (nm : String)
    (hstep : ∀ (st : ConfigState) (l : String × Int), l.1 ≠ nm →
      π (read_config_line st l) = π st) :
    ∀ (lines : List (String × Int)) (st : ConfigState), (∀ l ∈ lines, l.1 ≠ nm) →
      π (lines.foldl read_config_line st) = π st
  | [], _, _ => rfl
  | l :: rest, st, h => by
    rw [List.foldl_cons,
      foldl_config_keeps π nm hstep rest _ (fun x hx => h x (List.mem_cons_of_mem l hx)),
      hstep st l (h l (List.mem_cons_self l rest))]

theorem read_config_line_baud (st : ConfigState) (l : String × Int) (h : l.1 ≠ "baud") :
    (read_config_line st l).baud = st.baud := by
  unfold read_config_line
  rw [if_neg h]
  split_ifs <;> rfl

theorem prescaler_of_positive (b : Int) (hpos : 0 < b) (hrange : 7 * b < 2 ^ 31) :
    prescaler b = (7 * b + 500) / 1000 := by
  have hw : wrap_int (7 * b) = 7 * b := by
    unfold wrap_int
    rw [Int.emod_eq_of_lt (by omega) (by omega)]
    omega
  unfold prescaler
  rw [hw, Int.tdiv_eq_ediv (by omega) (by norm_num)]

/-- C14: for a positive configured baud (in kbps, with `7*baud` within the range
of `int`), `read_config_file` computes the prescaler as `7*baud/1000` rounded to
the nearest integer (halves upward) and programs the BRP field with the
prescaler minus 1, whatever `ack_en`; for baud 500 the prescaler is 4 and the
field programmed is BRP(3). The configured baud is that of the last line named
`baud`. -/
theorem read_config_file_prescaler (g : Globals) (btr0 : BTR) (baud0 : Int)
    (before after : List (String × Int)) (b : Int)
    (hlast : ∀ l ∈ after, l.1 ≠ "baud") (hpos : 0 < b) (hrange : 7 * b < 2 ^ 31) :
    ∃ p : Int,
      (read_config_file g btr0 baud0 (some (before ++ ("baud", b) :: after))).2.1.BRP = p - 1 ∧
      prescaler b = p ∧
      p = (7 * b + 500) / 1000 ∧
      1000 * p - 7 * b ≤ 500 ∧ 7 * b - 1000 * p < 500 ∧
      (b = 500 → p = 4 ∧
        (read_config_file g btr0 baud0 (some (before ++ ("baud", b) :: after))).2.1.BRP = 3) := by
  have hp := prescaler_of_positive b hpos hrange
  have hbaud : ∀ st0 : ConfigState,
      ((before ++ ("baud", b) :: after).foldl read_config_line st0).baud = b := by
    intro st0
    rw [List.foldl_append, List.foldl_cons,
      foldl_config_keeps (fun st => st.baud) "baud" read_config_line_baud after _ hlast]
    unfold read_config_line
    rw [if_pos rfl]
  have hbrp : (read_config_file g btr0 baud0 (some (before ++ ("baud", b) :: after))).2.1.BRP
      = prescaler b - 1 := by
    unfold read_config_file
    simp only [hbaud]
    split_ifs <;> rfl
  refine ⟨prescaler b, hbrp, rfl, hp, ?_, ?_, ?_⟩
  · rw [hp]
    omega
  · rw [hp]
    omega
  · intro h500
    rw [hbrp, hp, h500]
    decide

/-- C14, at the file with `baud 500`. -/
theorem read_config_file_prescaler_witness :
    ∃ p : Int,
      (read_config_file ex_cfg_plain ex_btr 0
        (some ([] ++ ("baud", 500) :: [("colour", 3), ("id_filter_mask", 0x7FF)]))).2.1.BRP
        = p - 1 ∧
      prescaler 500 = p ∧
      p = (7 * 500 + 500) / 1000 ∧
      1000 * p - 7 * 500 ≤ 500 ∧ 7 * 500 - 1000 * p < 500 ∧
      ((500 : Int) = 500 → p = 4 ∧
        (read_config_file ex_cfg_plain ex_btr 0
          (some ([] ++ ("baud", 500) :: [("colour", 3), ("id_filter_mask", 0x7FF)]))).2.1.BRP
          = 3) :=
  read_config_file_prescaler ex_cfg_plain ex_btr 0 [] [("colour", 3), ("id_filter_mask", 0x7FF)]
    500 (by decide) (by decide) (by decide)

